import Mathlib

/-!
Verification of the `incognito` crate's three cryptographic modules
(`src/schnorr.rs`, `src/bulletproof.rs`, `src/incognito.rs`) against its
specification, by a shallow embedding.

Modelling conventions, fixed once for the whole file:

* The prime-order elliptic-curve group (`ProjectivePoint<C>`) is an additive
  commutative group `P` that is a module over the scalar field `F`
  (`Scalar<C>`); `ProjectivePoint::generator()` is an arbitrary fixed point
  `genG`.  Rust's `point * scalar` becomes `scalar • point`, and a chain
  `point * a * b` becomes `b • (a • point)`.
* The hash-to-scalar digests (`challenge`, `challenge_cz`, `challenge_y`,
  `challenge_w`, `challenge_x`, `challenge_d`) are abstract functions bundled
  in a `HashModel`; the domain separation byte of `challenge_y`/`challenge_w`
  makes them two independent functions.
* Randomness drawn from `ThreadRng` is passed in explicitly (`r` for Schnorr
  signing, a `ConvertRand` record for conversion); the vectors
  `vec_s_a`/`vec_s_b` of `n` random scalars are the first `n` values of the
  streams `s_a`/`s_b`.
* `Scalar::invert().unwrap()` is modelled by the total field inverse
  (`0⁻¹ = 0`).  Rust panics on inversion of zero; accordingly every theorem
  whose run inverts a challenge carries an explicit hypothesis that the hash
  producing that challenge never returns zero, matching the claims'
  "assuming no derived challenge scalar is zero".
* Rust `Vec`s are Lean `List`s.  Indexing whose bound holds by construction
  (slices of length `n` indexed below `n`) is `List.getD i 0`.  Indexing of
  the fixed-size `[ProjectivePoint; MAXN]` parameter arrays inside
  `IncognitoParams::verify` — the one place the code indexes without having
  checked the bound — is `List.get?` inside an `Option` layer: a `none`
  result of `verify` models the Rust out-of-bounds panic.
* `anyhow::ensure!`/`bail!` failures are an `Except` error, tagged with the
  spec's error taxonomy: the two argument checks of `convert` are
  `badArguments`, the Schnorr and Incognito verification equations are
  `invalidSignature`, the two `ensure!` of `BulletProof::verify` are
  `proofInvalid`.
* `for` loops that accumulate a sum become `∑ i ∈ Finset.range n, …`;
  the `while n > 1` halving loop of the bulletproof becomes structural
  recursion on a fuel counter that starts at `vec_g.length`, which is enough
  fuel because the length at least halves every round.
-/

instance exceptDecEq {e a : Type} [DecidableEq e] [DecidableEq a] :
    DecidableEq (Except e a) := fun x y =>
  match x, y with
  | .ok v, .ok w =>
      if h : v = w then .isTrue (by rw [h]) else .isFalse (fun hc => h (Except.ok.inj hc))
  | .ok _, .error _ => .isFalse (fun hc => Except.noConfusion hc)
  | .error _, .ok _ => .isFalse (fun hc => Except.noConfusion hc)
  | .error v, .error w =>
      if h : v = w then .isTrue (by rw [h]) else .isFalse (fun hc => h (Except.error.inj hc))

/-- The three error kinds of the spec's error taxonomy (§7); the Rust code
returns untyped `anyhow` errors, tagged here by the site that raises them. -/
inductive IncErr : Type
  | badArguments
  | invalidSignature
  | proofInvalid
  deriving DecidableEq, Repr

/-- The six hash-to-scalar digests used by the crate, as abstract functions.
Each models `reduce_bytes(D(transcript))` for the transcript listed in the
corresponding `challenge*` function of the source. -/
structure HashModel (F P : Type) where
  hSig : P → List Nat → F
  hBp : P → P → P → F
  hCz : P → P → F
  hY : P → P → P → P → P → F
  hW : P → P → P → P → P → F
  hX : P → P → F → F → F
  hD : F → F → F → F → F → F

variable {F : Type} [Field F] [DecidableEq F]
variable {P : Type} [AddCommGroup P] [Module F P] [DecidableEq P]

/-- `SchnorrSignature` (src/schnorr.rs, lines 8–13): a pair `(R, z)`. -/
structure SchnorrSignature (F P : Type) where
  point_r : P
  z : F
  deriving DecidableEq

/-- `SchnorrSignature::sign` (src/schnorr.rs, lines 38–51); the random nonce
`r` is an explicit argument. -/
def SchnorrSignature.sign (hm : HashModel F P) (genG : P) (sk : F) (message : List Nat)
    (r : F) : SchnorrSignature F P :=
  let point_r := r • genG
  let c := hm.hSig point_r message
  ⟨point_r, r + sk * c⟩

/-- `SchnorrSignature::verify` (src/schnorr.rs, lines 53–67):
accept iff `pk * H(R‖m) + R == G * z`. -/
def SchnorrSignature.verify (hm : HashModel F P) (genG : P) (sig : SchnorrSignature F P)
    (pk : P) (message : List Nat) : Except IncErr Unit :=
  if hm.hSig sig.point_r message • pk + sig.point_r = sig.z • genG then .ok ()
  else .error .invalidSignature

/-- `BulletProof` (src/bulletproof.rs, lines 6–14). -/
structure BulletProof (F P : Type) where
  target : P
  vec_point_l : List P
  vec_point_r : List P
  l : F
  r : F
  deriving DecidableEq

/-- The mutable loop state of `BulletProof::prove` (src/bulletproof.rs,
lines 54–63): the four vectors and the evolving point `P`. -/
structure BpState (F P : Type) where
  vec_g : List P
  vec_h : List P
  vec_l : List F
  vec_r : List F
  point_p : P
  deriving DecidableEq

/-- The `L` point of one halving round (src/bulletproof.rs, lines 72–74):
`Σ_{i<n} G_{1,i}·l_{0,i} + H_{0,i}·r_{1,i}` with `n = |G|/2`. -/
def bpPointL (st : BpState F P) : P :=
  let n := st.vec_g.length / 2
  ∑ i ∈ Finset.range n,
    ((st.vec_l.take n).getD i 0 • (st.vec_g.drop n).getD i 0
      + (st.vec_r.drop n).getD i 0 • (st.vec_h.take n).getD i 0)

/-- The `R` point of one halving round (src/bulletproof.rs, lines 75–77):
`Σ_{i<n} G_{0,i}·l_{1,i} + H_{1,i}·r_{0,i}` with `n = |G|/2`. -/
def bpPointR (st : BpState F P) : P :=
  let n := st.vec_g.length / 2
  ∑ i ∈ Finset.range n,
    ((st.vec_l.drop n).getD i 0 • (st.vec_g.take n).getD i 0
      + (st.vec_r.take n).getD i 0 • (st.vec_h.drop n).getD i 0)

/-- One folding step of `BulletProof::prove` (src/bulletproof.rs,
lines 84–88) at challenge `x`:
`P ← L·x² + P + R·x⁻²`, `G_i ← G_{0,i}·x⁻¹ + G_{1,i}·x`,
`H_i ← H_{0,i}·x + H_{1,i}·x⁻¹`, `l_i ← l_{0,i}·x + l_{1,i}·x⁻¹`,
`r_i ← r_{0,i}·x⁻¹ + r_{1,i}·x`. -/
def bpFold (x : F) (st : BpState F P) : BpState F P :=
  let n := st.vec_g.length / 2
  let xinv := x⁻¹
  { vec_g := (List.range n).map fun i =>
      xinv • (st.vec_g.take n).getD i 0 + x • (st.vec_g.drop n).getD i 0
    vec_h := (List.range n).map fun i =>
      x • (st.vec_h.take n).getD i 0 + xinv • (st.vec_h.drop n).getD i 0
    vec_l := (List.range n).map fun i =>
      x * (st.vec_l.take n).getD i 0 + xinv * (st.vec_l.drop n).getD i 0
    vec_r := (List.range n).map fun i =>
      xinv * (st.vec_r.take n).getD i 0 + x * (st.vec_r.drop n).getD i 0
    point_p := (x * x) • bpPointL st + st.point_p + (xinv * xinv) • bpPointR st }

/-- Result of the `while n > 1` loop of `BulletProof::prove`: the collected
`L`/`R` points and the final state. -/
structure BpRoundsResult (F P : Type) where
  ls : List P
  rs : List P
  final : BpState F P
  deriving DecidableEq

/-- The `while n > 1` loop of `BulletProof::prove` (src/bulletproof.rs,
lines 65–95), as structural recursion on a fuel counter; `fuel ≥ vec_g.length`
is enough fuel because the length at least halves every round.  The challenge
of each round is `H_bp(target, L, R)` with the original `target`. -/
def bpRoundsFuel (hBp : P → P → P → F) (target : P) : Nat → BpState F P → BpRoundsResult F P
  | 0, st => ⟨[], [], st⟩
  | fuel + 1, st =>
    if st.vec_g.length ≤ 1 then ⟨[], [], st⟩
    else
      let pl := bpPointL st
      let pr := bpPointR st
      let x := hBp target pl pr
      let rest := bpRoundsFuel hBp target fuel (bpFold x st)
      ⟨pl :: rest.ls, pr :: rest.rs, rest.final⟩

/-- `BulletProof::prove` (src/bulletproof.rs, lines 50–107). -/
def BulletProof.prove (hBp : P → P → P → F) (vec_g vec_h : List P) (vec_l vec_r : List F)
    (target : P) : BulletProof F P :=
  let res := bpRoundsFuel hBp target vec_g.length ⟨vec_g, vec_h, vec_l, vec_r, target⟩
  ⟨target, res.ls, res.rs, res.final.vec_l.getD 0 0, res.final.vec_r.getD 0 0⟩

/-- The verifier's folding loop of `BulletProof::verify` (src/bulletproof.rs,
lines 120–134): same challenges and folds as the prover, but only `P`, `G⃗`,
`H⃗` are folded; returns the final `(G⃗, H⃗, P)`. -/
def bpVerifyLoop (hBp : P → P → P → F) (target : P) :
    List P → List P → List P → List P → P → List P × List P × P
  | [], _, vec_g, vec_h, point_p => (vec_g, vec_h, point_p)
  | pl :: ls, rs, vec_g, vec_h, point_p =>
    let n := vec_g.length / 2
    let pr := rs.getD 0 0
    let x := hBp target pl pr
    let xinv := x⁻¹
    let point_p' := (x * x) • pl + point_p + (xinv * xinv) • pr
    let vec_g' := (List.range n).map fun i =>
      xinv • (vec_g.take n).getD i 0 + x • (vec_g.drop n).getD i 0
    let vec_h' := (List.range n).map fun i =>
      x • (vec_h.take n).getD i 0 + xinv • (vec_h.drop n).getD i 0
    bpVerifyLoop hBp target ls (rs.drop 1) vec_g' vec_h' point_p'

/-- `BulletProof::verify` (src/bulletproof.rs, lines 109–139): requires
`|G⃗| = 2^{|L⃗|}`, folds, and accepts iff `P_final = G_0·l + H_0·r`. -/
def BulletProof.verify (hBp : P → P → P → F) (bp : BulletProof F P)
    (vec_g vec_h : List P) : Except IncErr Unit :=
  if vec_g.length = 2 ^ bp.vec_point_l.length then
    let res := bpVerifyLoop hBp bp.target bp.vec_point_l bp.vec_point_r vec_g vec_h bp.target
    if res.2.2 = bp.l • res.1.getD 0 0 + bp.r • res.2.1.getD 0 0 then .ok ()
    else .error .proofInvalid
  else .error .proofInvalid

/-- The loop invariant of `BulletProof::prove` (the `debug_assert_eq!` of
src/bulletproof.rs, lines 90–94): `P = Σ G_i·l_i + Σ H_i·r_i`. -/
def bpInvariant (st : BpState F P) : Prop :=
  st.point_p = ∑ i ∈ Finset.range st.vec_g.length,
    (st.vec_l.getD i 0 • st.vec_g.getD i 0 + st.vec_r.getD i 0 • st.vec_h.getD i 0)

/-- "No challenge scalar derived during the bulletproof reduces to zero",
stated on the emitted transcript: the challenge of round `i` is
`H_bp(target, L_i, R_i)`. -/
def bpChallengesOK (hBp : P → P → P → F) (target : P) (ls rs : List P) : Prop :=
  ∀ pr ∈ ls.zip rs, hBp target pr.1 pr.2 ≠ 0

instance (hBp : P → P → P → F) (target : P) (ls rs : List P) :
    Decidable (bpChallengesOK hBp target ls rs) := by
  unfold bpChallengesOK
  infer_instance

instance (st : BpState F P) : Decidable (bpInvariant st) := by
  unfold bpInvariant
  infer_instance

/-- `IncognitoParams<MAXN>` (src/incognito.rs, lines 9–16).  The const
generic `MAXN` is carried separately; `IncognitoParams.WF` states the Rust
type invariant that both arrays have length `MAXN`. -/
structure IncognitoParams (F P : Type) where
  g : P
  h : P
  vec_g : List P
  vec_h : List P
  deriving DecidableEq

/-- The `[ProjectivePoint; MAXN]` type invariant of `IncognitoParams`. -/
def IncognitoParams.WF (params : IncognitoParams F P) (MAXN : Nat) : Prop :=
  params.vec_g.length = MAXN ∧ params.vec_h.length = MAXN

instance (params : IncognitoParams F P) (MAXN : Nat) : Decidable (params.WF MAXN) := by
  unfold IncognitoParams.WF
  infer_instance

/-- `IncognitoSignature` (src/incognito.rs, lines 27–45), fields in source
declaration order. -/
structure IncognitoSignature (F P : Type) where
  point_r : P
  point_c_pk : P
  point_r_z : P
  s_z : F
  s_beta : F
  point_a : P
  point_s : P
  point_s_pk : P
  point_t1 : P
  point_t2 : P
  taux : F
  mu : F
  nu : F
  tx : F
  bulletproof : BulletProof F P
  deriving DecidableEq

/-- The random scalars drawn by `IncognitoParams::convert`
(src/incognito.rs, lines 212–232 and 264–265); `s_a`/`s_b` are the streams
whose first `n` values are `vec_s_a`/`vec_s_b`. -/
structure ConvertRand (F : Type) where
  beta : F
  r_z : F
  r_beta : F
  alpha : F
  rho : F
  zeta : F
  s_a : Nat → F
  s_b : Nat → F
  tau1 : F
  tau2 : F

/-- `IncognitoParams::build_vec_yn` (src/incognito.rs, lines 87–96),
iteratively: the accumulator starts at `1` and is multiplied by `y` each
step, so entry `i` is `y^i`. -/
def buildVecYnGo (y : F) : Nat → F → List F
  | 0, _ => []
  | k + 1, cur => cur :: buildVecYnGo y k (cur * y)

/-- `build_vec_yn n y = [1, y, y², …, y^{n-1}]` (src/incognito.rs,
lines 87–96). -/
def build_vec_yn (n : Nat) (y : F) : List F :=
  buildVecYnGo y n 1

/-- The bit vector `b⃗`: `vec_b[i] = if i == index { 1 } else { 0 }`
(src/incognito.rs, line 234). -/
def vec_b (index i : Nat) : F :=
  if i = index then 1 else 0

/-- `a⃗ = b⃗ − 1⃗` componentwise (src/incognito.rs, line 235). -/
def vec_a (index i : Nat) : F :=
  vec_b index i - 1

/-- The scalar `t₁` of `convert` (src/incognito.rs, lines 258–260). -/
def convT1 (n index : Nat) (y w : F) (sa sb : Nat → F) : F :=
  ∑ i ∈ Finset.range n,
    (sb i * ((build_vec_yn n y).getD i 0 * (vec_a index i + w) + w * w)
      + (vec_b index i - w) * ((build_vec_yn n y).getD i 0 * sa i))

/-- The scalar `t₂` of `convert` (src/incognito.rs, line 261). -/
def convT2 (n : Nat) (y : F) (sa sb : Nat → F) : F :=
  ∑ i ∈ Finset.range n, sb i * (build_vec_yn n y).getD i 0 * sa i

/-- Entry `i` of `vec_l` in `convert` (src/incognito.rs, line 274):
`l_i = (b_i − w) + s_{b,i}·x`. -/
def convL (index : Nat) (w x : F) (sb : Nat → F) (i : Nat) : F :=
  (vec_b index i - w) + sb i * x

/-- Entry `i` of `vec_r` in `convert` (src/incognito.rs, line 275):
`r_i = y_i·(a_i + w + s_{a,i}·x) + w²`. -/
def convR (n index : Nat) (y w x : F) (sa : Nat → F) (i : Nat) : F :=
  (build_vec_yn n y).getD i 0 * (vec_a index i + w + sa i * x) + w * w

/-- The scalar `t_x = Σ l_i·r_i` of `convert` (src/incognito.rs, line 276). -/
def convTx (n index : Nat) (y w x : F) (sa sb : Nat → F) : F :=
  ∑ i ∈ Finset.range n, convL index w x sb i * convR n index y w x sa i

/-- The scalar `t₀ = w² − w³·n + (w − w²)·Σ yⁱ`, as accumulated by the loops
of src/incognito.rs lines 280–286 (in `convert`'s debug assertion) and
363–372 (in `verify`): `n` enters as a sum of `n` ones and `Σ yⁱ` as the sum
of the `y`-powers vector. -/
def convT0 (n : Nat) (y w : F) : F :=
  w * w - w * w * w * (∑ _i ∈ Finset.range n, (1 : F))
    + (w - w * w) * ∑ i ∈ Finset.range n, (build_vec_yn n y).getD i 0

/-- All inputs of `IncognitoParams::convert` (src/incognito.rs,
lines 199–208) in one record, so that each intermediate value of the
conversion can be a named projection below. -/
structure ConvertCtx (F P : Type) where
  hm : HashModel F P
  genG : P
  params : IncognitoParams F P
  rand : ConvertRand F
  pks : List P
  message : List Nat
  sig : SchnorrSignature F P
  index : Nat

/-- `n = pks.len()` (src/incognito.rs, line 230). -/
def ConvertCtx.n (v : ConvertCtx F P) : Nat :=
  v.pks.length

/-- `C_pk = g·β + pk_π` (src/incognito.rs, line 214). -/
def ConvertCtx.point_c_pk (v : ConvertCtx F P) : P :=
  v.rand.beta • v.params.g + v.pks.getD v.index 0

/-- `c = H_sig(R, m)` (src/incognito.rs, line 218), the same challenge
function as Schnorr verification. -/
def ConvertCtx.c (v : ConvertCtx F P) : F :=
  v.hm.hSig v.sig.point_r v.message

/-- `R_z = G·r_z + g·r_β·c` (src/incognito.rs, line 220). -/
def ConvertCtx.point_r_z (v : ConvertCtx F P) : P :=
  v.rand.r_z • v.genG + v.c • (v.rand.r_beta • v.params.g)

/-- `c_z = H_cz(R_z, C_pk)` (src/incognito.rs, line 221). -/
def ConvertCtx.c_z (v : ConvertCtx F P) : F :=
  v.hm.hCz v.point_r_z v.point_c_pk

/-- `s_z = r_z + c_z·z` (src/incognito.rs, line 223). -/
def ConvertCtx.s_z (v : ConvertCtx F P) : F :=
  v.rand.r_z + v.c_z * v.sig.z

/-- `s_β = r_β + c_z·β` (src/incognito.rs, line 224). -/
def ConvertCtx.s_beta (v : ConvertCtx F P) : F :=
  v.rand.r_beta + v.c_z * v.rand.beta

/-- `A = h·α + Σ G_i·b_i + Σ H_i·a_i` (src/incognito.rs, lines 237–241). -/
def ConvertCtx.point_a (v : ConvertCtx F P) : P :=
  v.rand.alpha • v.params.h
    + ∑ i ∈ Finset.range v.n,
        ((vec_b v.index i : F) • v.params.vec_g.getD i 0
          + (vec_a v.index i : F) • v.params.vec_h.getD i 0)

/-- `S = h·ρ + Σ G_i·s_{b,i} + Σ H_i·s_{a,i}` (src/incognito.rs,
lines 242–246). -/
def ConvertCtx.point_s (v : ConvertCtx F P) : P :=
  v.rand.rho • v.params.h
    + ∑ i ∈ Finset.range v.n,
        (v.rand.s_b i • v.params.vec_g.getD i 0 + v.rand.s_a i • v.params.vec_h.getD i 0)

/-- `S_pk = g·ζ + Σ pk_i·s_{b,i}` (src/incognito.rs, lines 247–250). -/
def ConvertCtx.point_s_pk (v : ConvertCtx F P) : P :=
  v.rand.zeta • v.params.g + ∑ i ∈ Finset.range v.n, v.rand.s_b i • v.pks.getD i 0

/-- `y = H_y(g, A, S, S_pk, C_pk ‖ 0x00)` (src/incognito.rs, line 252). -/
def ConvertCtx.y (v : ConvertCtx F P) : F :=
  v.hm.hY v.params.g v.point_a v.point_s v.point_s_pk v.point_c_pk

/-- `w = H_w(g, A, S, S_pk, C_pk ‖ 0x01)` (src/incognito.rs, line 253). -/
def ConvertCtx.w (v : ConvertCtx F P) : F :=
  v.hm.hW v.params.g v.point_a v.point_s v.point_s_pk v.point_c_pk

/-- `t₁` as accumulated in src/incognito.rs, lines 256–260. -/
def ConvertCtx.t1 (v : ConvertCtx F P) : F :=
  convT1 v.n v.index v.y v.w v.rand.s_a v.rand.s_b

/-- `t₂` as accumulated in src/incognito.rs, line 261. -/
def ConvertCtx.t2 (v : ConvertCtx F P) : F :=
  convT2 v.n v.y v.rand.s_a v.rand.s_b

/-- `T₁ = G·t₁ + h·τ₁` (src/incognito.rs, line 266). -/
def ConvertCtx.point_t1 (v : ConvertCtx F P) : P :=
  v.t1 • v.genG + v.rand.tau1 • v.params.h

/-- `T₂ = G·t₂ + h·τ₂` (src/incognito.rs, line 267). -/
def ConvertCtx.point_t2 (v : ConvertCtx F P) : P :=
  v.t2 • v.genG + v.rand.tau2 • v.params.h

/-- `x = H_x(T₁, T₂, y, w)` (src/incognito.rs, line 269). -/
def ConvertCtx.x (v : ConvertCtx F P) : F :=
  v.hm.hX v.point_t1 v.point_t2 v.y v.w

/-- `τ_x = τ₂·x² + τ₁·x` (src/incognito.rs, line 270). -/
def ConvertCtx.taux (v : ConvertCtx F P) : F :=
  v.rand.tau2 * v.x * v.x + v.rand.tau1 * v.x

/-- `μ = α + ρ·x` (src/incognito.rs, line 271). -/
def ConvertCtx.mu (v : ConvertCtx F P) : F :=
  v.rand.alpha + v.rand.rho * v.x

/-- `ν = β + ζ·x` (src/incognito.rs, line 272). -/
def ConvertCtx.nu (v : ConvertCtx F P) : F :=
  v.rand.beta + v.rand.zeta * v.x

/-- `vec_l` (src/incognito.rs, line 274). -/
def ConvertCtx.vec_l (v : ConvertCtx F P) : List F :=
  (List.range v.n).map (convL v.index v.w v.x v.rand.s_b)

/-- `vec_r` (src/incognito.rs, line 275). -/
def ConvertCtx.vec_r (v : ConvertCtx F P) : List F :=
  (List.range v.n).map (convR v.n v.index v.y v.w v.x v.rand.s_a)

/-- `t_x` (src/incognito.rs, line 276). -/
def ConvertCtx.tx (v : ConvertCtx F P) : F :=
  convTx v.n v.index v.y v.w v.x v.rand.s_a v.rand.s_b

/-- `d = H_d(x, τ_x, μ, ν, t_x)` (src/incognito.rs, line 290). -/
def ConvertCtx.d (v : ConvertCtx F P) : F :=
  v.hm.hD v.x v.taux v.mu v.nu v.tx

/-- `bulletproof_base1[i] = G_i + pk_i·d` (src/incognito.rs, line 293). -/
def ConvertCtx.base1 (v : ConvertCtx F P) : List P :=
  (List.range v.n).map fun i => v.params.vec_g.getD i 0 + v.d • v.pks.getD i 0

/-- `bulletproof_base2[i] = H_i·y⁻ⁱ` (src/incognito.rs, line 294), with
`vec_yn_inv = build_vec_yn n y⁻¹` (line 292). -/
def ConvertCtx.base2 (v : ConvertCtx F P) : List P :=
  (List.range v.n).map fun i =>
    (build_vec_yn v.n v.y⁻¹).getD i 0 • v.params.vec_h.getD i 0

/-- `bulletproof_target = Σ (G_i + pk_i·d)·l_i + (H_i·y⁻ⁱ)·r_i`
(src/incognito.rs, lines 296–298). -/
def ConvertCtx.bp_target (v : ConvertCtx F P) : P :=
  ∑ i ∈ Finset.range v.n,
    (convL v.index v.w v.x v.rand.s_b i • (v.params.vec_g.getD i 0 + v.d • v.pks.getD i 0)
      + convR v.n v.index v.y v.w v.x v.rand.s_a i
          • ((build_vec_yn v.n v.y⁻¹).getD i 0 • v.params.vec_h.getD i 0))

/-- The embedded bulletproof of `convert` (src/incognito.rs, line 299). -/
def ConvertCtx.bulletproof (v : ConvertCtx F P) : BulletProof F P :=
  BulletProof.prove v.hm.hBp v.base1 v.base2 v.vec_l v.vec_r v.bp_target

/-- The `IncognitoSignature` assembled by `convert` (src/incognito.rs,
lines 301–317). -/
def ConvertCtx.output (v : ConvertCtx F P) : IncognitoSignature F P :=
  { point_r := v.sig.point_r
    point_c_pk := v.point_c_pk
    point_r_z := v.point_r_z
    s_z := v.s_z
    s_beta := v.s_beta
    point_a := v.point_a
    point_s := v.point_s
    point_s_pk := v.point_s_pk
    point_t1 := v.point_t1
    point_t2 := v.point_t2
    taux := v.taux
    mu := v.mu
    nu := v.nu
    tx := v.tx
    bulletproof := v.bulletproof }

/-- `IncognitoParams::convert` (src/incognito.rs, lines 199–318): the two
`ensure!` argument checks (lines 209–210) and the conversion body. -/
def IncognitoParams.convert (hm : HashModel F P) (genG : P) (MAXN : Nat)
    (params : IncognitoParams F P) (rand : ConvertRand F) (pks : List P)
    (message : List Nat) (signature : SchnorrSignature F P) (index : Nat) :
    Except IncErr (IncognitoSignature F P) :=
  if pks.length ≤ MAXN then
    if index < pks.length then
      .ok (ConvertCtx.output ⟨hm, genG, params, rand, pks, message, signature, index⟩)
    else .error .badArguments
  else .error .badArguments

/-- The `point_2` accumulation loop of `IncognitoParams::verify`
(src/incognito.rs, lines 381–385).  The accesses `self.vec_g[i]` and
`self.vec_h[i]` are not bounds-checked against `n` in the source, so they are
`List.get?` here; `none` models the Rust panic. -/
def point2Loop (vg vh pks : List P) (vyn vyninv : List F) (d w : F) :
    Nat → P → Option P
  | 0, acc => some acc
  | n + 1, acc => do
    let acc' ← point2Loop vg vh pks vyn vyninv d w n acc
    let gi ← vg.get? n
    let hi ← vh.get? n
    some (acc' + (-w) • (gi + d • pks.getD n 0)
      + (w * vyn.getD n 0 + w * w) • (vyninv.getD n 0 • hi))

/-- The `bulletproof_base1` construction of `verify` (src/incognito.rs,
line 390), with the unchecked `self.vec_g[i]` access as `List.get?`. -/
def baseLoop1 (vg pks : List P) (d : F) : Nat → Option (List P)
  | 0 => some []
  | n + 1 => do
    let pre ← baseLoop1 vg pks d n
    let gi ← vg.get? n
    some (pre ++ [gi + d • pks.getD n 0])

/-- The `bulletproof_base2` construction of `verify` (src/incognito.rs,
line 391), with the unchecked `self.vec_h[i]` access as `List.get?`. -/
def baseLoop2 (vh : List P) (vyninv : List F) : Nat → Option (List P)
  | 0 => some []
  | n + 1 => do
    let pre ← baseLoop2 vh vyninv n
    let hi ← vh.get? n
    some (pre ++ [vyninv.getD n 0 • hi])

/-- All inputs of `IncognitoParams::verify` (src/incognito.rs,
lines 320–328) in one record. -/
structure VerifyCtx (F P : Type) where
  hm : HashModel F P
  genG : P
  params : IncognitoParams F P
  pks : List P
  message : List Nat
  sig : IncognitoSignature F P

/-- `n = pks.len()` (src/incognito.rs, line 329). -/
def VerifyCtx.n (v : VerifyCtx F P) : Nat :=
  v.pks.length

/-- `c = H_sig(R, m)` recomputed by the verifier (src/incognito.rs,
line 349). -/
def VerifyCtx.c (v : VerifyCtx F P) : F :=
  v.hm.hSig v.sig.point_r v.message

/-- `c_z = H_cz(R_z, C_pk)` recomputed (src/incognito.rs, line 351). -/
def VerifyCtx.c_z (v : VerifyCtx F P) : F :=
  v.hm.hCz v.sig.point_r_z v.sig.point_c_pk

/-- `y` recomputed (src/incognito.rs, line 352). -/
def VerifyCtx.y (v : VerifyCtx F P) : F :=
  v.hm.hY v.params.g v.sig.point_a v.sig.point_s v.sig.point_s_pk v.sig.point_c_pk

/-- `w` recomputed (src/incognito.rs, line 353). -/
def VerifyCtx.w (v : VerifyCtx F P) : F :=
  v.hm.hW v.params.g v.sig.point_a v.sig.point_s v.sig.point_s_pk v.sig.point_c_pk

/-- Check 1 of `verify` (src/incognito.rs, lines 357–359):
`G·s_z + g·s_β·c == R_z + R·c_z + C_pk·c_z·c`. -/
abbrev VerifyCtx.check1 (v : VerifyCtx F P) : Prop :=
  v.sig.s_z • v.genG + v.c • (v.sig.s_beta • v.params.g)
    = v.sig.point_r_z + v.c_z • v.sig.point_r + v.c • (v.c_z • v.sig.point_c_pk)

/-- `x` recomputed (src/incognito.rs, line 361). -/
def VerifyCtx.x (v : VerifyCtx F P) : F :=
  v.hm.hX v.sig.point_t1 v.sig.point_t2 v.y v.w

/-- `t₀` as accumulated by the verifier (src/incognito.rs, lines 363–372). -/
def VerifyCtx.t0 (v : VerifyCtx F P) : F :=
  convT0 v.n v.y v.w

/-- Check 2 of `verify` (src/incognito.rs, lines 373–375):
`G·t_x + h·τ_x == G·t₀ + T₁·x + T₂·x²`. -/
abbrev VerifyCtx.check2 (v : VerifyCtx F P) : Prop :=
  v.sig.tx • v.genG + v.sig.taux • v.params.h
    = v.t0 • v.genG + v.x • v.sig.point_t1 + v.x • (v.x • v.sig.point_t2)

/-- `d` recomputed (src/incognito.rs, line 379). -/
def VerifyCtx.d (v : VerifyCtx F P) : F :=
  v.hm.hD v.x v.sig.taux v.sig.mu v.sig.nu v.sig.tx

/-- `point_1 = g·d·ν + h·μ` (src/incognito.rs, line 380). -/
def VerifyCtx.point_1 (v : VerifyCtx F P) : P :=
  v.sig.nu • (v.d • v.params.g) + v.sig.mu • v.params.h

/-- The initial value of `point_2`: `A + S·x + C_pk·d + S_pk·x·d`
(src/incognito.rs, line 381). -/
def VerifyCtx.point_2_init (v : VerifyCtx F P) : P :=
  v.sig.point_a + v.x • v.sig.point_s + v.d • v.sig.point_c_pk
    + v.d • (v.x • v.sig.point_s_pk)

/-- `point_2` after the accumulation loop (src/incognito.rs,
lines 381–385); `none` models an out-of-bounds panic. -/
def VerifyCtx.point_2 (v : VerifyCtx F P) : Option P :=
  point2Loop v.params.vec_g v.params.vec_h v.pks
    (build_vec_yn v.n v.y) (build_vec_yn v.n v.y⁻¹) v.d v.w v.n v.point_2_init

/-- The body of `IncognitoParams::verify` (src/incognito.rs, lines 320–399)
over its input record: the three checks in source order, with the embedded
bulletproof verification between the `point_2` loop and the final binding
equation.  Result `none` models a Rust panic from an unchecked
`vec_g[i]`/`vec_h[i]` access; `some` carries the ok-or-error outcome. -/
def VerifyCtx.run (v : VerifyCtx F P) : Option (Except IncErr Unit) :=
  if v.check1 then
    if v.check2 then
      match v.point_2, baseLoop1 v.params.vec_g v.pks v.d v.n,
          baseLoop2 v.params.vec_h (build_vec_yn v.n v.y⁻¹) v.n with
      | some p2, some b1, some b2 =>
        match BulletProof.verify v.hm.hBp v.sig.bulletproof b1 b2 with
        | .ok _ =>
          if v.point_1 + v.sig.bulletproof.target = p2 then some (.ok ())
          else some (.error .invalidSignature)
        | .error e => some (.error e)
      | _, _, _ => none
    else some (.error .invalidSignature)
  else some (.error .invalidSignature)

/-- `IncognitoParams::verify` (src/incognito.rs, lines 320–399). -/
def IncognitoParams.verify (hm : HashModel F P) (genG : P)
    (params : IncognitoParams F P) (pks : List P) (message : List Nat)
    (sig : IncognitoSignature F P) : Option (Except IncErr Unit) :=
  VerifyCtx.run ⟨hm, genG, params, pks, message, sig⟩

/-- `SchnorrSignatureSerde` (src/schnorr.rs, lines 15–20): the wire form,
with the point in affine encoding. -/
structure SchnorrSignatureSerde (F A : Type) where
  point_r : A
  z : F
  deriving DecidableEq

/-- `BulletProofSerde` (src/bulletproof.rs, lines 16–24). -/
structure BulletProofSerde (F A : Type) where
  target : A
  vec_point_l : List A
  vec_point_r : List A
  l : F
  r : F
  deriving DecidableEq

/-- `IncognitoSignatureSerde` (src/incognito.rs, lines 47–65). -/
structure IncognitoSignatureSerde (F P A : Type) where
  point_r : A
  point_c_pk : A
  point_r_z : A
  s_z : F
  s_beta : F
  point_a : A
  point_s : A
  point_s_pk : A
  point_t1 : A
  point_t2 : A
  taux : F
  mu : F
  nu : F
  tx : F
  bulletproof : BulletProof F P
  deriving DecidableEq

/-- `IncognitoParamsSerde` (src/incognito.rs, lines 18–25): fixed arrays
become length-prefixed vectors. -/
structure IncognitoParamsSerde (A : Type) where
  g : A
  h : A
  vec_g : List A
  vec_h : List A
  deriving DecidableEq

variable {A : Type}

/-- `From<SchnorrSignature> for SchnorrSignatureSerde` (src/schnorr.rs,
lines 70–81); `toAffine` is the curve library's `to_affine`. -/
def SchnorrSignature.toSerde (toAffine : P → A) (v : SchnorrSignature F P) :
    SchnorrSignatureSerde F A :=
  ⟨toAffine v.point_r, v.z⟩

/-- `From<SchnorrSignatureSerde> for SchnorrSignature` (src/schnorr.rs,
lines 83–94); `fromAffine` is `ProjectivePoint::from`. -/
def SchnorrSignature.ofSerde (fromAffine : A → P) (v : SchnorrSignatureSerde F A) :
    SchnorrSignature F P :=
  ⟨fromAffine v.point_r, v.z⟩

/-- `From<BulletProof> for BulletProofSerde` (src/bulletproof.rs,
lines 142–156). -/
def BulletProof.toSerde (toAffine : P → A) (v : BulletProof F P) :
    BulletProofSerde F A :=
  ⟨toAffine v.target, v.vec_point_l.map toAffine, v.vec_point_r.map toAffine, v.l, v.r⟩

/-- `From<BulletProofSerde> for BulletProof` (src/bulletproof.rs,
lines 158–172). -/
def BulletProof.ofSerde (fromAffine : A → P) (v : BulletProofSerde F A) :
    BulletProof F P :=
  ⟨fromAffine v.target, v.vec_point_l.map fromAffine, v.vec_point_r.map fromAffine, v.l, v.r⟩

/-- `From<IncognitoSignature> for IncognitoSignatureSerde`
(src/incognito.rs, lines 446–466).  The nested bulletproof is converted by
its own serde pair, kept as-is here. -/
def IncognitoSignature.toSerde (v : IncognitoSignature F P) :
    (P → A) → IncognitoSignatureSerde F P A := fun toAffine =>
  ⟨toAffine v.point_r, toAffine v.point_c_pk, toAffine v.point_r_z, v.s_z, v.s_beta,
    toAffine v.point_a, toAffine v.point_s, toAffine v.point_s_pk,
    toAffine v.point_t1, toAffine v.point_t2, v.taux, v.mu, v.nu, v.tx, v.bulletproof⟩

/-- `From<IncognitoSignatureSerde> for IncognitoSignature`
(src/incognito.rs, lines 424–444). -/
def IncognitoSignature.ofSerde (v : IncognitoSignatureSerde F P A) :
    (A → P) → IncognitoSignature F P := fun fromAffine =>
  ⟨fromAffine v.point_r, fromAffine v.point_c_pk, fromAffine v.point_r_z, v.s_z, v.s_beta,
    fromAffine v.point_a, fromAffine v.point_s, fromAffine v.point_s_pk,
    fromAffine v.point_t1, fromAffine v.point_t2, v.taux, v.mu, v.nu, v.tx, v.bulletproof⟩

/-- `From<IncognitoParams> for IncognitoParamsSerde` (src/incognito.rs,
lines 413–422). -/
def IncognitoParams.toSerde (toAffine : P → A) (v : IncognitoParams F P) :
    IncognitoParamsSerde A :=
  ⟨toAffine v.g, toAffine v.h, v.vec_g.map toAffine, v.vec_h.map toAffine⟩

/-- `From<IncognitoParamsSerde> for IncognitoParams` (src/incognito.rs,
lines 402–411): the `try_into().unwrap()` back into `[P; MAXN]` panics
(`none`) unless both vectors have length `MAXN`. -/
def IncognitoParams.ofSerde (fromAffine : A → P) (MAXN : Nat)
    (v : IncognitoParamsSerde A) : Option (IncognitoParams F P) :=
  if v.vec_g.length = MAXN ∧ v.vec_h.length = MAXN then
    some ⟨fromAffine v.g, fromAffine v.h, v.vec_g.map fromAffine, v.vec_h.map fromAffine⟩
  else none

instance : Fact (Nat.Prime 13) :=
  ⟨by norm_num⟩

/-- A concrete hash model over `F = P = ZMod 13` (the group of order 13 with
generator `1`), used by the witness instances below.  Each digest is a
nonzero constant, so every derived challenge is nonzero. -/
def constHash : HashModel (ZMod 13) (ZMod 13) :=
  ⟨fun _ _ => 2, fun _ _ _ => 1, fun _ _ => 3, fun _ _ _ _ _ => 2,
    fun _ _ _ _ _ => 1, fun _ _ _ _ => 5, fun _ _ _ _ _ => 6⟩

/-- Concrete conversion randomness for witness instances. -/
def cRand : ConvertRand (ZMod 13) :=
  ⟨3, 4, 5, 6, 7, 8, fun i => (i : ZMod 13) + 2, fun i => (i : ZMod 13) + 3, 9, 10⟩

/-- Concrete parameters with `MAXN = 1`. -/
def cParams1 : IncognitoParams (ZMod 13) (ZMod 13) :=
  ⟨2, 3, [5], [7]⟩

/-- Concrete parameters with `MAXN = 4`. -/
def cParams4 : IncognitoParams (ZMod 13) (ZMod 13) :=
  ⟨2, 3, [5, 6, 7, 8], [9, 10, 11, 12]⟩

/-- Concrete parameters with `MAXN = 0`. -/
def cParams0 : IncognitoParams (ZMod 13) (ZMod 13) :=
  ⟨2, 3, [], []⟩

/-- An all-zero `IncognitoSignature`, used as a malformed input. -/
def cZeroSig : IncognitoSignature (ZMod 13) (ZMod 13) :=
  ⟨0, 0, 0, 0, 0, 0, 0, 0, 0, 0, 0, 0, 0, 0, ⟨0, [], [], 0, 0⟩⟩

/-- The concrete output of `convert` on the witness input of claim C1:
ring `[4 • 1]` (one honest key with `sk = 4`), message `[1, 2, 3]`,
Schnorr nonce `5`, `π = 0`, `MAXN = 1`. -/
def cIsig : IncognitoSignature (ZMod 13) (ZMod 13) :=
  ConvertCtx.output
    ⟨constHash, 1, cParams1, cRand, [(4 : ZMod 13) • (1 : ZMod 13)], [1, 2, 3],
      SchnorrSignature.sign constHash 1 4 [1, 2, 3] 5, 0⟩

/-!
Helper lemmas about list indexing and the `y`-powers vector.
-/

theorem getD_take {α : Type} (l : List α) (n i : Nat) (d : α) (h : i < n) :
    (l.take n).getD i d = l.getD i d := by
  rw [List.getD_eq_getElem?_getD, List.getD_eq_getElem?_getD, List.getElem?_take, if_pos h]

theorem getD_drop {α : Type} (l : List α) (n i : Nat) (d : α) :
    (l.drop n).getD i d = l.getD (n + i) d := by
  rw [List.getD_eq_getElem?_getD, List.getD_eq_getElem?_getD, List.getElem?_drop]

theorem getD_range_map {α : Type} (f : Nat → α) (n i : Nat) (d : α) (h : i < n) :
    ((List.range n).map f).getD i d = f i := by
  rw [List.getD_eq_getElem?_getD, List.getElem?_map, List.getElem?_range h]
  rfl

theorem get?_eq_some_getD {α : Type} (l : List α) (i : Nat) (d : α) (h : i < l.length) :
    l.get? i = some (l.getD i d) := by
  rw [List.getD_eq_getElem?_getD, List.get?_eq_getElem?, List.getElem?_eq_getElem h]
  rfl

theorem buildVecYnGo_getD (y : F) (k : Nat) :
    ∀ i cur, i < k → (buildVecYnGo y k cur).getD i 0 = cur * y ^ i := by
  induction k with
  | zero => intro i cur h; omega
  | succ k ih =>
    intro i cur h
    match i with
    | 0 => simp [buildVecYnGo]
    | i + 1 =>
      show (buildVecYnGo y k (cur * y)).getD i 0 = cur * y ^ (i + 1)
      rw [ih i (cur * y) (by omega)]
      ring

theorem build_vec_yn_getD (n : Nat) (y : F) (i : Nat) (h : i < n) :
    (build_vec_yn n y).getD i 0 = y ^ i := by
  rw [build_vec_yn, buildVecYnGo_getD y n i 1 h, one_mul]

theorem buildVecYnGo_length (y : F) (k : Nat) :
    ∀ cur, (buildVecYnGo y k cur).length = k := by
  induction k with
  | zero => intro cur; rfl
  | succ k ih => intro cur; simp only [buildVecYnGo, List.length_cons, ih]

theorem build_vec_yn_length (n : Nat) (y : F) : (build_vec_yn n y).length = n := by
  rw [build_vec_yn, buildVecYnGo_length]

/-!
Schnorr claims.
-/

/-- C3: Schnorr correctness — for every secret key `sk`, message `m` and
nonce `r`, `verify (G·sk) m (sign sk m r)` returns ok. -/
theorem schnorr_correctness (hm : HashModel F P) (genG : P) (sk : F)
    (message : List Nat) (r : F) :
    SchnorrSignature.verify hm genG (SchnorrSignature.sign hm genG sk message r)
      (sk • genG) message = .ok () := by
  unfold SchnorrSignature.verify SchnorrSignature.sign
  rw [if_pos]
  module

/-- C4: Schnorr verification accept-iff — `verify` returns ok iff
`pk·H(R‖m) + R = G·z`, returns the `InvalidSignature` error iff the equation
fails, and there is no other outcome. -/
theorem schnorr_verify_iff (hm : HashModel F P) (genG : P)
    (sig : SchnorrSignature F P) (pk : P) (message : List Nat) :
    (SchnorrSignature.verify hm genG sig pk message = .ok () ↔
      hm.hSig sig.point_r message • pk + sig.point_r = sig.z • genG)
    ∧ (SchnorrSignature.verify hm genG sig pk message = .error .invalidSignature ↔
      ¬hm.hSig sig.point_r message • pk + sig.point_r = sig.z • genG) := by
  unfold SchnorrSignature.verify
  by_cases h : hm.hSig sig.point_r message • pk + sig.point_r = sig.z • genG <;>
    simp [h]

/-!
The bulletproof halving round preserves the prover invariant.
-/

theorem bpPointL_eq (st : BpState F P) (n : Nat) (hg : st.vec_g.length = 2 * n) :
    bpPointL st = ∑ i ∈ Finset.range n,
      (st.vec_l.getD i 0 • st.vec_g.getD (n + i) 0
        + st.vec_r.getD (n + i) 0 • st.vec_h.getD i 0) := by
  have hn : st.vec_g.length / 2 = n := by omega
  simp only [bpPointL, hn]
  refine Finset.sum_congr rfl fun i hi => ?_
  have hi' := Finset.mem_range.mp hi
  rw [getD_take _ _ _ _ hi', getD_take _ _ _ _ hi', getD_drop, getD_drop]

theorem bpPointR_eq (st : BpState F P) (n : Nat) (hg : st.vec_g.length = 2 * n) :
    bpPointR st = ∑ i ∈ Finset.range n,
      (st.vec_l.getD (n + i) 0 • st.vec_g.getD i 0
        + st.vec_r.getD i 0 • st.vec_h.getD (n + i) 0) := by
  have hn : st.vec_g.length / 2 = n := by omega
  simp only [bpPointR, hn]
  refine Finset.sum_congr rfl fun i hi => ?_
  have hi' := Finset.mem_range.mp hi
  rw [getD_take _ _ _ _ hi', getD_take _ _ _ _ hi', getD_drop, getD_drop]

theorem bpFold_invariant_aux (st : BpState F P) (n : Nat)
    (hg : st.vec_g.length = 2 * n) (hh : st.vec_h.length = 2 * n)
    (hl : st.vec_l.length = 2 * n) (hr : st.vec_r.length = 2 * n)
    (x : F) (hx : x ≠ 0) (hinv : bpInvariant st) :
    bpInvariant (bpFold x st) := by
  have hn : st.vec_g.length / 2 = n := by omega
  unfold bpInvariant at hinv ⊢
  have hlen : (bpFold x st).vec_g.length = n := by
    simp [bpFold, hn]
  rw [hlen]
  have hsum : ∑ i ∈ Finset.range n,
      ((bpFold x st).vec_l.getD i 0 • (bpFold x st).vec_g.getD i 0
        + (bpFold x st).vec_r.getD i 0 • (bpFold x st).vec_h.getD i 0)
      = ∑ i ∈ Finset.range n,
        (((st.vec_l.getD i 0 • st.vec_g.getD i 0 + st.vec_r.getD i 0 • st.vec_h.getD i 0)
            + (st.vec_l.getD (n + i) 0 • st.vec_g.getD (n + i) 0
                + st.vec_r.getD (n + i) 0 • st.vec_h.getD (n + i) 0))
          + ((x * x) • (st.vec_l.getD i 0 • st.vec_g.getD (n + i) 0
                + st.vec_r.getD (n + i) 0 • st.vec_h.getD i 0)
            + (x⁻¹ * x⁻¹) • (st.vec_l.getD (n + i) 0 • st.vec_g.getD i 0
                + st.vec_r.getD i 0 • st.vec_h.getD (n + i) 0))) := by
    refine Finset.sum_congr rfl fun i hi => ?_
    have hi' := Finset.mem_range.mp hi
    simp only [bpFold, hn]
    rw [getD_range_map _ _ _ _ hi', getD_range_map _ _ _ _ hi',
        getD_range_map _ _ _ _ hi', getD_range_map _ _ _ _ hi',
        getD_take _ _ _ _ hi', getD_take _ _ _ _ hi', getD_take _ _ _ _ hi',
        getD_take _ _ _ _ hi', getD_drop, getD_drop, getD_drop, getD_drop]
    have h1 : x * x⁻¹ = 1 := mul_inv_cancel₀ hx
    match_scalars <;> (field_simp; try ring)
  rw [hsum]
  show (x * x) • bpPointL st + st.point_p + (x⁻¹ * x⁻¹) • bpPointR st = _
  rw [bpPointL_eq st n hg, bpPointR_eq st n hg, hinv, hg, two_mul, Finset.sum_range_add]
  simp only [smul_add, Finset.smul_sum, Finset.sum_add_distrib]
  abel

/-- C7: Prover folding invariant — if `P = Σ_{i<2n} G_i·l_i + Σ H_i·r_i`
holds at the start of a halving round, then after appending `(L, R)`,
updating `P ← L·x² + P + R·x⁻²` and folding all four vectors, the equation
holds again at length `n`, for every nonzero challenge `x`; hence every round
of `BulletProof::prove` preserves the invariant. -/
theorem bp_prove_fold_invariant (st : BpState F P) (n : Nat)
    (hg : st.vec_g.length = 2 * n) (hh : st.vec_h.length = 2 * n)
    (hl : st.vec_l.length = 2 * n) (hr : st.vec_r.length = 2 * n)
    (x : F) (hx : x ≠ 0) (hinv : bpInvariant st) :
    bpInvariant (bpFold x st) :=
  bpFold_invariant_aux st n hg hh hl hr x hx hinv

/-- Witness for C7: a concrete state of length `2·1` over `ZMod 13` with a
nonzero challenge. -/
theorem bp_prove_fold_invariant_witness :
    (⟨[1, 2], [3, 4], [5, 6], [7, 8], 5⟩ : BpState (ZMod 13) (ZMod 13)).vec_g.length = 2 * 1
    ∧ (2 : ZMod 13) ≠ 0
    ∧ bpInvariant (⟨[1, 2], [3, 4], [5, 6], [7, 8], 5⟩ : BpState (ZMod 13) (ZMod 13))
    ∧ bpInvariant (bpFold 2 (⟨[1, 2], [3, 4], [5, 6], [7, 8], 5⟩ : BpState (ZMod 13) (ZMod 13))) :=
  ⟨by decide, by decide, by decide,
    bp_prove_fold_invariant _ 1 (by decide) (by decide) (by decide) (by decide) 2
      (by decide) (by decide)⟩

/-!
Completeness of the bulletproof: the verifier retraces the prover's rounds.
-/

theorem bpRoundsFuel_complete (hBp : P → P → P → F) (target : P) :
    ∀ (fuel : Nat) (k : Nat) (st : BpState F P),
      st.vec_g.length = 2 ^ k → st.vec_h.length = 2 ^ k →
      st.vec_l.length = 2 ^ k → st.vec_r.length = 2 ^ k →
      2 ^ k ≤ fuel → bpInvariant st →
      bpChallengesOK hBp target (bpRoundsFuel hBp target fuel st).ls
        (bpRoundsFuel hBp target fuel st).rs →
      (bpRoundsFuel hBp target fuel st).ls.length = k
      ∧ (bpRoundsFuel hBp target fuel st).final.vec_g.length = 1
      ∧ bpVerifyLoop hBp target (bpRoundsFuel hBp target fuel st).ls
          (bpRoundsFuel hBp target fuel st).rs st.vec_g st.vec_h st.point_p
        = ((bpRoundsFuel hBp target fuel st).final.vec_g,
            (bpRoundsFuel hBp target fuel st).final.vec_h,
            (bpRoundsFuel hBp target fuel st).final.point_p)
      ∧ bpInvariant (bpRoundsFuel hBp target fuel st).final := by
  intro fuel
  induction fuel with
  | zero =>
    intro k st hg hh hl hr hfuel hinv hch
    have h1 : 1 ≤ 2 ^ k := Nat.one_le_two_pow
    omega
  | succ fuel ih =>
    intro k st hg hh hl hr hfuel hinv hch
    by_cases hng : st.vec_g.length ≤ 1
    · have hk : k = 0 := by
        by_contra hk0
        have h2 : 2 ^ 1 ≤ 2 ^ k := Nat.pow_le_pow_right (by omega) (by omega)
        omega
      subst hk
      have hres : bpRoundsFuel hBp target (fuel + 1) st = ⟨[], [], st⟩ := by
        conv_lhs => rw [bpRoundsFuel]
        rw [if_pos hng]
      rw [hres]
      exact ⟨rfl, by simpa using hg, rfl, hinv⟩
    · have hlen2 : 1 < st.vec_g.length := by omega
      obtain ⟨k', rfl⟩ : ∃ k', k = k' + 1 := by
        cases k with
        | zero => rw [hg] at hlen2; omega
        | succ k' => exact ⟨k', rfl⟩
      have hpk : 2 ^ (k' + 1) = 2 * 2 ^ k' := by ring
      have hone : 1 ≤ 2 ^ k' := Nat.one_le_two_pow
      have hres : bpRoundsFuel hBp target (fuel + 1) st
          = ⟨bpPointL st :: (bpRoundsFuel hBp target fuel
                (bpFold (hBp target (bpPointL st) (bpPointR st)) st)).ls,
              bpPointR st :: (bpRoundsFuel hBp target fuel
                (bpFold (hBp target (bpPointL st) (bpPointR st)) st)).rs,
              (bpRoundsFuel hBp target fuel
                (bpFold (hBp target (bpPointL st) (bpPointR st)) st)).final⟩ := by
        conv_lhs => rw [bpRoundsFuel]
        rw [if_neg hng]
      rw [hres] at hch ⊢
      have hx : hBp target (bpPointL st) (bpPointR st) ≠ 0 := by
        apply hch (bpPointL st, bpPointR st)
        simp [List.zip_cons_cons]
      have hchrest : bpChallengesOK hBp target
          (bpRoundsFuel hBp target fuel
            (bpFold (hBp target (bpPointL st) (bpPointR st)) st)).ls
          (bpRoundsFuel hBp target fuel
            (bpFold (hBp target (bpPointL st) (bpPointR st)) st)).rs := by
        intro pr hpr
        apply hch pr
        simp [List.zip_cons_cons]
        right
        exact hpr
      have hgf : (bpFold (hBp target (bpPointL st) (bpPointR st)) st).vec_g.length = 2 ^ k' := by
        simp [bpFold]
        omega
      have hhf : (bpFold (hBp target (bpPointL st) (bpPointR st)) st).vec_h.length = 2 ^ k' := by
        simp [bpFold]
        omega
      have hlf : (bpFold (hBp target (bpPointL st) (bpPointR st)) st).vec_l.length = 2 ^ k' := by
        simp [bpFold]
        omega
      have hrf : (bpFold (hBp target (bpPointL st) (bpPointR st)) st).vec_r.length = 2 ^ k' := by
        simp [bpFold]
        omega
      have hfuel' : 2 ^ k' ≤ fuel := by omega
      have hinvf : bpInvariant (bpFold (hBp target (bpPointL st) (bpPointR st)) st) :=
        bpFold_invariant_aux st (2 ^ k') (by omega) (by omega) (by omega) (by omega) _ hx hinv
      obtain ⟨ihlen, ihfin, ihloop, ihinv⟩ :=
        ih k' (bpFold (hBp target (bpPointL st) (bpPointR st)) st) hgf hhf hlf hrf hfuel' hinvf hchrest
      refine ⟨by simpa using ihlen, ihfin, ?_, ihinv⟩
      have hstep : bpVerifyLoop hBp target
          (bpPointL st :: (bpRoundsFuel hBp target fuel
            (bpFold (hBp target (bpPointL st) (bpPointR st)) st)).ls)
          (bpPointR st :: (bpRoundsFuel hBp target fuel
            (bpFold (hBp target (bpPointL st) (bpPointR st)) st)).rs)
          st.vec_g st.vec_h st.point_p
          = bpVerifyLoop hBp target
            (bpRoundsFuel hBp target fuel
              (bpFold (hBp target (bpPointL st) (bpPointR st)) st)).ls
            (bpRoundsFuel hBp target fuel
              (bpFold (hBp target (bpPointL st) (bpPointR st)) st)).rs
            (bpFold (hBp target (bpPointL st) (bpPointR st)) st).vec_g
            (bpFold (hBp target (bpPointL st) (bpPointR st)) st).vec_h
            (bpFold (hBp target (bpPointL st) (bpPointR st)) st).point_p := rfl
      rw [hstep, ihloop]

theorem bp_complete_aux (hBp : P → P → P → F) (vec_g vec_h : List P)
    (vec_l vec_r : List F) (target : P) (k : Nat)
    (hg : vec_g.length = 2 ^ k) (hh : vec_h.length = 2 ^ k)
    (hl : vec_l.length = 2 ^ k) (hr : vec_r.length = 2 ^ k)
    (htarget : target = ∑ i ∈ Finset.range (2 ^ k),
      (vec_l.getD i 0 • vec_g.getD i 0 + vec_r.getD i 0 • vec_h.getD i 0))
    (hch : bpChallengesOK hBp target
      (BulletProof.prove hBp vec_g vec_h vec_l vec_r target).vec_point_l
      (BulletProof.prove hBp vec_g vec_h vec_l vec_r target).vec_point_r) :
    BulletProof.verify hBp (BulletProof.prove hBp vec_g vec_h vec_l vec_r target)
      vec_g vec_h = .ok () := by
  have hst : bpInvariant (⟨vec_g, vec_h, vec_l, vec_r, target⟩ : BpState F P) := by
    unfold bpInvariant
    simpa [hg] using htarget
  have hch' : bpChallengesOK hBp target
      (bpRoundsFuel hBp target vec_g.length
        (⟨vec_g, vec_h, vec_l, vec_r, target⟩ : BpState F P)).ls
      (bpRoundsFuel hBp target vec_g.length
        (⟨vec_g, vec_h, vec_l, vec_r, target⟩ : BpState F P)).rs := hch
  obtain ⟨hlen, hfin, hloop, hinv⟩ := bpRoundsFuel_complete hBp target vec_g.length k
    (⟨vec_g, vec_h, vec_l, vec_r, target⟩ : BpState F P) hg hh hl hr (by rw [hg]) hst hch'
  unfold BulletProof.verify
  rw [show (BulletProof.prove hBp vec_g vec_h vec_l vec_r target).vec_point_l
      = (bpRoundsFuel hBp target vec_g.length
          (⟨vec_g, vec_h, vec_l, vec_r, target⟩ : BpState F P)).ls from rfl,
    hlen, if_pos hg]
  rw [show (BulletProof.prove hBp vec_g vec_h vec_l vec_r target).vec_point_r
      = (bpRoundsFuel hBp target vec_g.length
          (⟨vec_g, vec_h, vec_l, vec_r, target⟩ : BpState F P)).rs from rfl]
  rw [show (BulletProof.prove hBp vec_g vec_h vec_l vec_r target).target = target from rfl]
  rw [show bpVerifyLoop hBp target
      (bpRoundsFuel hBp target vec_g.length
        (⟨vec_g, vec_h, vec_l, vec_r, target⟩ : BpState F P)).ls
      (bpRoundsFuel hBp target vec_g.length
        (⟨vec_g, vec_h, vec_l, vec_r, target⟩ : BpState F P)).rs
      vec_g vec_h target
      = bpVerifyLoop hBp target
        (bpRoundsFuel hBp target vec_g.length
          (⟨vec_g, vec_h, vec_l, vec_r, target⟩ : BpState F P)).ls
        (bpRoundsFuel hBp target vec_g.length
          (⟨vec_g, vec_h, vec_l, vec_r, target⟩ : BpState F P)).rs
        (⟨vec_g, vec_h, vec_l, vec_r, target⟩ : BpState F P).vec_g
        (⟨vec_g, vec_h, vec_l, vec_r, target⟩ : BpState F P).vec_h
        (⟨vec_g, vec_h, vec_l, vec_r, target⟩ : BpState F P).point_p from rfl, hloop]
  rw [if_pos]
  unfold bpInvariant at hinv
  rw [hfin] at hinv
  rw [show (BulletProof.prove hBp vec_g vec_h vec_l vec_r target).l
      = (bpRoundsFuel hBp target vec_g.length
          (⟨vec_g, vec_h, vec_l, vec_r, target⟩ : BpState F P)).final.vec_l.getD 0 0 from rfl,
    show (BulletProof.prove hBp vec_g vec_h vec_l vec_r target).r
      = (bpRoundsFuel hBp target vec_g.length
          (⟨vec_g, vec_h, vec_l, vec_r, target⟩ : BpState F P)).final.vec_r.getD 0 0 from rfl]
  simpa using hinv

/-- C2: BulletProof completeness — for every power-of-two length `n = 2^k`,
bases `G⃗`, `H⃗` and scalar vectors `l⃗`, `r⃗` of length `n`, and target
`P = Σ G_i·l_i + Σ H_i·r_i`, `BulletProof::verify (G⃗, H⃗)` accepts the
proof produced by `BulletProof::prove (G⃗, H⃗, l⃗, r⃗, P)`, provided no
round challenge reduces to zero. -/
theorem bulletproof_completeness (hBp : P → P → P → F) (vec_g vec_h : List P)
    (vec_l vec_r : List F) (target : P) (k : Nat)
    (hg : vec_g.length = 2 ^ k) (hh : vec_h.length = 2 ^ k)
    (hl : vec_l.length = 2 ^ k) (hr : vec_r.length = 2 ^ k)
    (htarget : target = ∑ i ∈ Finset.range (2 ^ k),
      (vec_l.getD i 0 • vec_g.getD i 0 + vec_r.getD i 0 • vec_h.getD i 0))
    (hch : bpChallengesOK hBp target
      (BulletProof.prove hBp vec_g vec_h vec_l vec_r target).vec_point_l
      (BulletProof.prove hBp vec_g vec_h vec_l vec_r target).vec_point_r) :
    BulletProof.verify hBp (BulletProof.prove hBp vec_g vec_h vec_l vec_r target)
      vec_g vec_h = .ok () :=
  bp_complete_aux hBp vec_g vec_h vec_l vec_r target k hg hh hl hr htarget hch

/-- Witness for C2 at `n = 1` over `ZMod 13`. -/
theorem bulletproof_completeness_witness :
    ((10 : ZMod 13) = ∑ i ∈ Finset.range (2 ^ 0),
      (([4] : List (ZMod 13)).getD i 0 • ([2] : List (ZMod 13)).getD i 0
        + ([5] : List (ZMod 13)).getD i 0 • ([3] : List (ZMod 13)).getD i 0))
    ∧ bpChallengesOK constHash.hBp (10 : ZMod 13)
        (BulletProof.prove constHash.hBp [2] [3] [4] [5] 10).vec_point_l
        (BulletProof.prove constHash.hBp [2] [3] [4] [5] 10).vec_point_r
    ∧ BulletProof.verify constHash.hBp
        (BulletProof.prove constHash.hBp [2] [3] [4] [5] 10) [2] [3] = .ok () :=
  ⟨by decide, by decide,
    bulletproof_completeness constHash.hBp [2] [3] [4] [5] 10 0 (by decide) (by decide)
      (by decide) (by decide) (by decide) (by decide)⟩

/-!
The polynomial opening identity of the conversion.
-/

theorem sum_vec_b (n index : Nat) (hidx : index < n) :
    ∑ i ∈ Finset.range n, (vec_b index i : F) = 1 := by
  unfold vec_b
  rw [Finset.sum_ite_eq' (Finset.range n) index fun _ => (1 : F),
    if_pos (Finset.mem_range.mpr hidx)]

theorem conv_poly_aux (n index : Nat) (hidx : index < n) (y w x : F)
    (sa sb : Nat → F) :
    convTx n index y w x sa sb
      = convT0 n y w + convT1 n index y w sa sb * x + convT2 n y sa sb * (x * x) := by
  have hpoint : ∀ i ∈ Finset.range n,
      convL index w x sb i * convR n index y w x sa i
        = ((w - w * w) * (build_vec_yn n y).getD i 0
            + w * w * vec_b index i - w * w * w)
          + (sb i * ((build_vec_yn n y).getD i 0 * (vec_a index i + w) + w * w)
              + (vec_b index i - w) * ((build_vec_yn n y).getD i 0 * sa i)) * x
          + (sb i * (build_vec_yn n y).getD i 0 * sa i) * (x * x) := by
    intro i _
    unfold convL convR vec_a vec_b
    by_cases hi : i = index
    · rw [if_pos hi]; ring
    · rw [if_neg hi]; ring
  unfold convTx
  rw [Finset.sum_congr rfl hpoint]
  rw [Finset.sum_add_distrib, Finset.sum_add_distrib, ← Finset.sum_mul, ← Finset.sum_mul]
  have hA : ∑ i ∈ Finset.range n,
      ((w - w * w) * (build_vec_yn n y).getD i 0 + w * w * vec_b index i - w * w * w)
      = convT0 n y w := by
    unfold convT0
    rw [Finset.sum_sub_distrib, Finset.sum_add_distrib, ← Finset.mul_sum, ← Finset.mul_sum,
      sum_vec_b n index hidx]
    simp only [Finset.sum_const, Finset.card_range, nsmul_eq_mul, mul_one]
    ring
  rw [hA]
  unfold convT1 convT2
  ring

/-- C8: Polynomial-opening identity in `convert` — with `b` the unit vector
at `π`, `a = b − 1`, `y`-powers `y_i`, `l_i = (b_i − w) + s_{b,i}·x`,
`r_i = y_i·(a_i + w + s_{a,i}·x) + w²`, `t_x = Σ l_i·r_i`, and `t₀`, `t₁`,
`t₂` as in the source, the field identity
`t_x = (w² − w³·n + (w − w²)·Σ yʲ) + t₁·x + t₂·x²` holds for all scalars
`y`, `w`, `x` and all blinder vectors `s_a`, `s_b`. -/
theorem incognito_poly_identity (n index : Nat) (hidx : index < n) (y w x : F)
    (sa sb : Nat → F) :
    convTx n index y w x sa sb
      = convT0 n y w + convT1 n index y w sa sb * x + convT2 n y sa sb * (x * x) :=
  conv_poly_aux n index hidx y w x sa sb

/-- Witness for C8 at `n = 2`, `π = 1` over `ZMod 13`. -/
theorem incognito_poly_identity_witness :
    1 < 2
    ∧ convTx 2 1 (2 : ZMod 13) 3 4 (fun i => (i : ZMod 13) + 1) (fun i => (i : ZMod 13) + 5)
      = convT0 2 (2 : ZMod 13) 3
        + convT1 2 1 (2 : ZMod 13) 3 (fun i => (i : ZMod 13) + 1) (fun i => (i : ZMod 13) + 5) * 4
        + convT2 2 (2 : ZMod 13) (fun i => (i : ZMod 13) + 1) (fun i => (i : ZMod 13) + 5) * (4 * 4) :=
  ⟨by decide,
    incognito_poly_identity 2 1 (by decide) 2 3 4 (fun i => (i : ZMod 13) + 1)
      (fun i => (i : ZMod 13) + 5)⟩

/-!
Error behaviour of the conversion.
-/

/-- C5: Conversion error behaviour — `convert` returns a `BadArguments` error
iff `n > MAXN` or `π ≥ n`; for every other input it returns `Ok` with an
`IncognitoSignature` (no cryptographic check during conversion can fail).
The hypotheses `hy` and `hbp` are the claim's bracket that no derived
challenge scalar is zero, under which the source's `invert().unwrap()` calls
cannot panic; the `Ok`/`Err` outcome does not otherwise depend on them. -/
theorem convert_error_behaviour (hm : HashModel F P) (genG : P) (MAXN : Nat)
    (params : IncognitoParams F P) (rand : ConvertRand F) (pks : List P)
    (message : List Nat) (signature : SchnorrSignature F P) (index : Nat)
    (hy : ∀ a b c d e, hm.hY a b c d e ≠ 0)
    (hbp : ∀ a b c, hm.hBp a b c ≠ 0) :
    (IncognitoParams.convert hm genG MAXN params rand pks message signature index
        = .error .badArguments ↔ (MAXN < pks.length ∨ pks.length ≤ index))
    ∧ (¬(MAXN < pks.length ∨ pks.length ≤ index) →
        IncognitoParams.convert hm genG MAXN params rand pks message signature index
          = .ok (ConvertCtx.output ⟨hm, genG, params, rand, pks, message, signature, index⟩)) := by
  unfold IncognitoParams.convert
  by_cases h1 : pks.length ≤ MAXN
  · by_cases h2 : index < pks.length
    · rw [if_pos h1, if_pos h2]
      exact ⟨⟨fun hcon => absurd hcon (by simp), fun hcon => absurd hcon (by omega)⟩,
        fun _ => rfl⟩
    · rw [if_pos h1, if_neg h2]
      exact ⟨⟨fun _ => Or.inr (by omega), fun _ => rfl⟩,
        fun hcon => absurd (Or.inr (by omega)) hcon⟩
  · rw [if_neg h1]
    exact ⟨⟨fun _ => Or.inl (by omega), fun _ => rfl⟩,
      fun hcon => absurd (Or.inl (by omega)) hcon⟩

/-- Witness for C5 at a valid one-element ring over `ZMod 13`. -/
theorem convert_error_behaviour_witness :
    (∀ a b c d e : ZMod 13, constHash.hY a b c d e ≠ 0)
    ∧ (∀ a b c : ZMod 13, constHash.hBp a b c ≠ 0)
    ∧ ((IncognitoParams.convert constHash 1 1 cParams1 cRand [4] [1, 2, 3] ⟨6, 7⟩ 0
          = .error .badArguments ↔ (1 < ([(4 : ZMod 13)] : List (ZMod 13)).length
            ∨ ([(4 : ZMod 13)] : List (ZMod 13)).length ≤ 0))
        ∧ (¬(1 < ([(4 : ZMod 13)] : List (ZMod 13)).length
              ∨ ([(4 : ZMod 13)] : List (ZMod 13)).length ≤ 0) →
            IncognitoParams.convert constHash 1 1 cParams1 cRand [4] [1, 2, 3] ⟨6, 7⟩ 0
              = .ok (ConvertCtx.output
                  ⟨constHash, 1, cParams1, cRand, [4], [1, 2, 3], ⟨6, 7⟩, 0⟩))) :=
  ⟨fun _ _ _ _ _ => by show (2 : ZMod 13) ≠ 0; decide,
    fun _ _ _ => by show (1 : ZMod 13) ≠ 0; decide,
    convert_error_behaviour constHash 1 1 cParams1 cRand [4] [1, 2, 3] ⟨6, 7⟩ 0
      (fun _ _ _ _ _ => by show (2 : ZMod 13) ≠ 0; decide)
      (fun _ _ _ => by show (1 : ZMod 13) ≠ 0; decide)⟩

/-- C6 (amended): `convert` performs no power-of-two check — for every ring
with `n ≤ MAXN` and `π < n`, power of two or not, it returns `Ok` with a
signature instead of reporting `BadArguments`.  As in C1 and C5, the
hypotheses `hy` and `hbp` bracket the zero-challenge case: when a derived
challenge reduces to zero the source instead panics at `y.invert().unwrap()`
(src/incognito.rs, line 292) or at a round's `x.invert().unwrap()`
(src/bulletproof.rs, line 82), the path the model's total inverse
collapses. -/
theorem convert_no_pow2_check (hm : HashModel F P) (genG : P) (MAXN : Nat)
    (params : IncognitoParams F P) (rand : ConvertRand F) (pks : List P)
    (message : List Nat) (signature : SchnorrSignature F P) (index : Nat)
    (hy : ∀ a b c d e, hm.hY a b c d e ≠ 0)
    (hbp : ∀ a b c, hm.hBp a b c ≠ 0)
    (hn : pks.length ≤ MAXN) (hi : index < pks.length) :
    (IncognitoParams.convert hm genG MAXN params rand pks message signature index).isOk
      = true := by
  unfold IncognitoParams.convert
  rw [if_pos hn, if_pos hi]
  rfl

/-- Witness for the amended C6 at a ring of non-power-of-two length 3, with
every digest of the hash model a nonzero constant. -/
theorem convert_no_pow2_check_witness :
    (∀ a b c d e : ZMod 13, constHash.hY a b c d e ≠ 0)
    ∧ (∀ a b c : ZMod 13, constHash.hBp a b c ≠ 0)
    ∧ ([1, 5, 6] : List (ZMod 13)).length ≤ 4
    ∧ 0 < ([1, 5, 6] : List (ZMod 13)).length
    ∧ (IncognitoParams.convert constHash 1 4 cParams4 cRand [1, 5, 6] [0] ⟨6, 7⟩ 0).isOk
      = true :=
  ⟨fun _ _ _ _ _ => by show (2 : ZMod 13) ≠ 0; decide,
    fun _ _ _ => by show (1 : ZMod 13) ≠ 0; decide,
    by decide, by decide,
    convert_no_pow2_check constHash 1 4 cParams4 cRand [1, 5, 6] [0] ⟨6, 7⟩ 0
      (fun _ _ _ _ _ => by show (2 : ZMod 13) ≠ 0; decide)
      (fun _ _ _ => by show (1 : ZMod 13) ≠ 0; decide)
      (by decide) (by decide)⟩

/-- Counterexample to C6 as stated: a ring of length 3 — not a power of two —
with `3 ≤ MAXN = 4` and `π = 0 < 3` makes `convert` return `Ok`; it does not
surface a `BadArguments` error. -/
theorem convert_pow2_counterexample :
    (∀ k : Nat, (3 : Nat) ≠ 2 ^ k)
    ∧ IncognitoParams.convert constHash 1 4 cParams4 cRand [1, 5, 6] [0] ⟨6, 7⟩ 0
        ≠ .error .badArguments
    ∧ (IncognitoParams.convert constHash 1 4 cParams4 cRand [1, 5, 6] [0] ⟨6, 7⟩ 0).isOk
        = true := by
  refine ⟨?_, by decide, by decide⟩
  intro k
  match k with
  | 0 => decide
  | 1 => decide
  | k + 2 =>
    have h4 : 4 ≤ 2 ^ (k + 2) := by
      calc (4 : Nat) = 2 ^ 2 := by norm_num
      _ ≤ 2 ^ (k + 2) := Nat.pow_le_pow_right (by norm_num) (by omega)
    omega

/-!
The `Option`-layer loops of `verify` evaluate to sums when every access is
in bounds, and to `none` when the loop bound exceeds the array length.
-/

theorem point2Loop_some (vg vh pks : List P) (vyn vyninv : List F) (d w : F) :
    ∀ n : Nat, n ≤ vg.length → n ≤ vh.length → ∀ acc : P,
      point2Loop vg vh pks vyn vyninv d w n acc
        = some (acc + ∑ i ∈ Finset.range n,
            ((-w) • (vg.getD i 0 + d • pks.getD i 0)
              + (w * vyn.getD i 0 + w * w) • (vyninv.getD i 0 • vh.getD i 0))) := by
  intro n
  induction n with
  | zero => intro _ _ acc; simp [point2Loop]
  | succ n ih =>
    intro h1 h2 acc
    conv_lhs => rw [point2Loop]
    rw [ih (by omega) (by omega) acc, get?_eq_some_getD vg n 0 (by omega),
      get?_eq_some_getD vh n 0 (by omega)]
    simp only [Option.bind_eq_bind, Option.some_bind]
    rw [Finset.sum_range_succ]
    refine congrArg some ?_
    abel

theorem point2Loop_none (vg vh pks : List P) (vyn vyninv : List F) (d w : F) :
    ∀ n : Nat, vg.length < n → ∀ acc : P,
      point2Loop vg vh pks vyn vyninv d w n acc = none := by
  intro n
  induction n with
  | zero => intro h; omega
  | succ n ih =>
    intro h acc
    conv_lhs => rw [point2Loop]
    by_cases hlen : vg.length < n
    · rw [ih hlen acc]
      rfl
    · have hnone : vg[n]? = none := by
        rw [List.getElem?_eq_none]
        omega
      cases hres : point2Loop vg vh pks vyn vyninv d w n acc with
      | none => rfl
      | some p => simp [hres, hnone]

theorem baseLoop1_some (vg pks : List P) (d : F) :
    ∀ n : Nat, n ≤ vg.length →
      baseLoop1 vg pks d n
        = some ((List.range n).map fun i => vg.getD i 0 + d • pks.getD i 0) := by
  intro n
  induction n with
  | zero => intro _; simp [baseLoop1]
  | succ n ih =>
    intro h
    conv_lhs => rw [baseLoop1]
    rw [ih (by omega), get?_eq_some_getD vg n 0 (by omega)]
    simp [List.range_succ]

theorem baseLoop2_some (vh : List P) (vyninv : List F) :
    ∀ n : Nat, n ≤ vh.length →
      baseLoop2 vh vyninv n
        = some ((List.range n).map fun i => vyninv.getD i 0 • vh.getD i 0) := by
  intro n
  induction n with
  | zero => intro _; simp [baseLoop2]
  | succ n ih =>
    intro h
    conv_lhs => rw [baseLoop2]
    rw [ih (by omega), get?_eq_some_getD vh n 0 (by omega)]
    simp [List.range_succ]

theorem smul_unit_sum (n index : Nat) (hidx : index < n) (pk : Nat → P) :
    pk index = ∑ i ∈ Finset.range n, (vec_b index i : F) • pk i := by
  unfold vec_b
  have hpt : ∀ i ∈ Finset.range n,
      ((if i = index then (1 : F) else 0) • pk i)
        = if i = index then pk i else 0 := by
    intro i _
    by_cases hi : i = index
    · rw [if_pos hi, if_pos hi, one_smul]
    · rw [if_neg hi, if_neg hi, zero_smul]
  rw [Finset.sum_congr rfl hpt, Finset.sum_ite_eq' (Finset.range n) index pk,
    if_pos (Finset.mem_range.mpr hidx)]

theorem getD_map_smul (sks : List F) (genG : P) (index : Nat) (h : index < sks.length) :
    (sks.map fun s => s • genG).getD index 0 = sks.getD index 0 • genG := by
  rw [List.getD_eq_getElem?_getD, List.getElem?_map, List.getD_eq_getElem?_getD,
    List.getElem?_eq_getElem h]
  rfl

/-!
The three checks of `IncognitoParams::verify` hold on an honestly converted
signature.
-/

theorem check1_aux (hm : HashModel F P) (genG : P) (params : IncognitoParams F P)
    (rand : ConvertRand F) (pks : List P) (message : List Nat) (index : Nat) (sk r : F)
    (hpk : pks.getD index 0 = sk • genG) :
    VerifyCtx.check1 ⟨hm, genG, params, pks, message,
      ConvertCtx.output ⟨hm, genG, params, rand, pks, message,
        SchnorrSignature.sign hm genG sk message r, index⟩⟩ := by
  show _ = _
  simp only [ConvertCtx.output, VerifyCtx.c, VerifyCtx.c_z, ConvertCtx.s_z,
    ConvertCtx.s_beta, ConvertCtx.point_r_z, ConvertCtx.point_c_pk, ConvertCtx.c,
    ConvertCtx.c_z, SchnorrSignature.sign, hpk]
  match_scalars <;> ring

theorem check2_aux (hm : HashModel F P) (genG : P) (params : IncognitoParams F P)
    (rand : ConvertRand F) (pks : List P) (message : List Nat)
    (sg : SchnorrSignature F P) (index : Nat) (hidx : index < pks.length) :
    VerifyCtx.check2 ⟨hm, genG, params, pks, message,
      ConvertCtx.output ⟨hm, genG, params, rand, pks, message, sg, index⟩⟩ := by
  show _ = _
  simp only [ConvertCtx.output, VerifyCtx.t0, VerifyCtx.x, VerifyCtx.y, VerifyCtx.w,
    VerifyCtx.n, ConvertCtx.tx, ConvertCtx.taux, ConvertCtx.point_t1, ConvertCtx.point_t2,
    ConvertCtx.t1, ConvertCtx.t2, ConvertCtx.x, ConvertCtx.y, ConvertCtx.w, ConvertCtx.n]
  rw [conv_poly_aux pks.length index hidx]
  match_scalars <;> ring

theorem check3_core (n index : Nat) (hidx : index < n) (y w x d beta alpha rho zeta : F)
    (sa sb : Nat → F) (gp hp : P) (vg vh pks : List P) (hy : y ≠ 0) :
    (beta + zeta * x) • (d • gp) + (alpha + rho * x) • hp
      + ∑ i ∈ Finset.range n,
          (convL index w x sb i • (vg.getD i 0 + d • pks.getD i 0)
            + convR n index y w x sa i • ((build_vec_yn n y⁻¹).getD i 0 • vh.getD i 0))
      = (alpha • hp + ∑ i ∈ Finset.range n,
            ((vec_b index i : F) • vg.getD i 0 + (vec_a index i : F) • vh.getD i 0))
        + x • (rho • hp + ∑ i ∈ Finset.range n,
            (sb i • vg.getD i 0 + sa i • vh.getD i 0))
        + d • (beta • gp + pks.getD index 0)
        + d • (x • (zeta • gp + ∑ i ∈ Finset.range n, sb i • pks.getD i 0))
        + ∑ i ∈ Finset.range n,
            ((-w) • (vg.getD i 0 + d • pks.getD i 0)
              + (w * (build_vec_yn n y).getD i 0 + w * w)
                • ((build_vec_yn n y⁻¹).getD i 0 • vh.getD i 0)) := by
  have hpk : pks.getD index 0
      = ∑ i ∈ Finset.range n, (vec_b index i : F) • pks.getD i 0 :=
    smul_unit_sum n index hidx fun i => pks.getD i 0
  have hsum : ∑ i ∈ Finset.range n,
      (convL index w x sb i • (vg.getD i 0 + d • pks.getD i 0)
        + convR n index y w x sa i • ((build_vec_yn n y⁻¹).getD i 0 • vh.getD i 0))
      = (∑ i ∈ Finset.range n,
          ((vec_b index i : F) • vg.getD i 0 + (vec_a index i : F) • vh.getD i 0))
        + x • (∑ i ∈ Finset.range n, (sb i • vg.getD i 0 + sa i • vh.getD i 0))
        + d • (∑ i ∈ Finset.range n, (vec_b index i : F) • pks.getD i 0)
        + d • (x • ∑ i ∈ Finset.range n, sb i • pks.getD i 0)
        + ∑ i ∈ Finset.range n,
            ((-w) • (vg.getD i 0 + d • pks.getD i 0)
              + (w * (build_vec_yn n y).getD i 0 + w * w)
                • ((build_vec_yn n y⁻¹).getD i 0 • vh.getD i 0)) := by
    simp only [Finset.smul_sum]
    rw [← Finset.sum_add_distrib, ← Finset.sum_add_distrib, ← Finset.sum_add_distrib,
      ← Finset.sum_add_distrib]
    refine Finset.sum_congr rfl fun i hi => ?_
    have hi' := Finset.mem_range.mp hi
    unfold convL convR vec_a
    rw [build_vec_yn_getD n y i hi', build_vec_yn_getD n (y⁻¹) i hi']
    have hyi : y ^ i * y⁻¹ ^ i = 1 := by
      rw [← mul_pow, mul_inv_cancel₀ hy, one_pow]
    match_scalars
    any_goals ring
    all_goals linear_combination (vec_b index i + sa i * x - 1) * hyi
  rw [hsum, hpk]
  match_scalars <;> ring

theorem VerifyCtx.run_ok (v : VerifyCtx F P) (p2 : P) (b1 b2 : List P)
    (h1 : v.check1) (h2 : v.check2)
    (hp2 : v.point_2 = some p2)
    (hb1 : baseLoop1 v.params.vec_g v.pks v.d v.n = some b1)
    (hb2 : baseLoop2 v.params.vec_h (build_vec_yn v.n v.y⁻¹) v.n = some b2)
    (hbp : BulletProof.verify v.hm.hBp v.sig.bulletproof b1 b2 = .ok ())
    (hfin : v.point_1 + v.sig.bulletproof.target = p2) :
    VerifyCtx.run v = some (.ok ()) := by
  unfold VerifyCtx.run
  rw [if_pos h1, if_pos h2, hp2, hb1, hb2]
  show (match BulletProof.verify v.hm.hBp v.sig.bulletproof b1 b2 with
    | .ok _ =>
      if v.point_1 + v.sig.bulletproof.target = p2 then some (Except.ok ())
      else some (Except.error IncErr.invalidSignature)
    | .error e => some (Except.error e)) = some (Except.ok ())
  rw [hbp]
  show (if v.point_1 + v.sig.bulletproof.target = p2 then some (Except.ok ())
    else some (Except.error IncErr.invalidSignature)) = some (Except.ok ())
  rw [if_pos hfin]

/-- C1: Incognito end-to-end correctness — for every ring size `n = 2^k` with
`n ≤ MAXN`, every message, every index `π < n`, and every vector of secret
keys with `pk_i = G·sk_i`, if `sig = SchnorrSignature::sign(sk_π, m)` then
`IncognitoParams::convert(ring, m, sig, π)` returns an `IncognitoSignature`
on which `IncognitoParams::verify(ring, m, ·)` returns ok, for every choice
of the random scalars drawn during sign and convert, assuming no derived
challenge scalar is zero (hypotheses `hy` and `hch` on the emitted
transcript, so every inversion succeeds). -/
theorem incognito_correctness (hm : HashModel F P) (genG : P) (MAXN k : Nat)
    (params : IncognitoParams F P) (rand : ConvertRand F) (sks : List F)
    (message : List Nat) (index : Nat) (r : F) (isig : IncognitoSignature F P)
    (hWF : params.WF MAXN)
    (hlen : sks.length = 2 ^ k)
    (hmax : sks.length ≤ MAXN)
    (hidx : index < sks.length)
    (hconv : IncognitoParams.convert hm genG MAXN params rand (sks.map fun s => s • genG)
        message (SchnorrSignature.sign hm genG (sks.getD index 0) message r) index
      = .ok isig)
    (hy : hm.hY params.g isig.point_a isig.point_s isig.point_s_pk isig.point_c_pk ≠ 0)
    (hch : bpChallengesOK hm.hBp isig.bulletproof.target isig.bulletproof.vec_point_l
      isig.bulletproof.vec_point_r) :
    IncognitoParams.verify hm genG params (sks.map fun s => s • genG) message isig
      = some (.ok ()) := by
  have hpklen : (sks.map fun s => s • genG).length = sks.length := List.length_map sks _
  set pks := sks.map fun s => s • genG with hpks
  set sg := SchnorrSignature.sign hm genG (sks.getD index 0) message r with hsg
  have hisig : isig = ConvertCtx.output ⟨hm, genG, params, rand, pks, message, sg, index⟩ := by
    unfold IncognitoParams.convert at hconv
    rw [if_pos (by omega), if_pos (by omega)] at hconv
    exact (Except.ok.inj hconv).symm
  subst hisig
  show VerifyCtx.run ⟨hm, genG, params, pks, message,
    ConvertCtx.output ⟨hm, genG, params, rand, pks, message, sg, index⟩⟩ = some (.ok ())
  set CTX : ConvertCtx F P := ⟨hm, genG, params, rand, pks, message, sg, index⟩ with hCTX
  set V : VerifyCtx F P := ⟨hm, genG, params, pks, message, ConvertCtx.output CTX⟩ with hV
  have hnle1 : V.n ≤ V.params.vec_g.length := by
    show pks.length ≤ params.vec_g.length
    rw [hWF.1]
    omega
  have hnle2 : V.n ≤ V.params.vec_h.length := by
    show pks.length ≤ params.vec_h.length
    rw [hWF.2]
    omega
  have hc1 : V.check1 := by
    rw [hV, hCTX]
    exact check1_aux hm genG params rand pks message index (sks.getD index 0) r
      (by rw [hpks]; exact getD_map_smul sks genG index hidx)
  have hc2 : V.check2 := by
    rw [hV, hCTX]
    exact check2_aux hm genG params rand pks message sg index (by omega)
  have hp2 : VerifyCtx.point_2 V = some (VerifyCtx.point_2_init V
      + ∑ i ∈ Finset.range V.n,
          ((-V.w) • (V.params.vec_g.getD i 0 + V.d • V.pks.getD i 0)
            + (V.w * (build_vec_yn V.n V.y).getD i 0 + V.w * V.w)
              • ((build_vec_yn V.n V.y⁻¹).getD i 0 • V.params.vec_h.getD i 0))) := by
    unfold VerifyCtx.point_2
    exact point2Loop_some _ _ _ _ _ _ _ V.n hnle1 hnle2 _
  have hb1 : baseLoop1 V.params.vec_g V.pks V.d V.n
      = some ((List.range V.n).map fun i =>
          V.params.vec_g.getD i 0 + V.d • V.pks.getD i 0) :=
    baseLoop1_some _ _ _ V.n hnle1
  have hb2 : baseLoop2 V.params.vec_h (build_vec_yn V.n V.y⁻¹) V.n
      = some ((List.range V.n).map fun i =>
          (build_vec_yn V.n V.y⁻¹).getD i 0 • V.params.vec_h.getD i 0) :=
    baseLoop2_some _ _ V.n hnle2
  have hlen1 : CTX.base1.length = 2 ^ k := by
    rw [hCTX]
    unfold ConvertCtx.base1 ConvertCtx.n
    simp only [List.length_map, List.length_range]
    omega
  have hlen2 : CTX.base2.length = 2 ^ k := by
    rw [hCTX]
    unfold ConvertCtx.base2 ConvertCtx.n
    simp only [List.length_map, List.length_range]
    omega
  have hlen3 : CTX.vec_l.length = 2 ^ k := by
    rw [hCTX]
    unfold ConvertCtx.vec_l ConvertCtx.n
    simp only [List.length_map, List.length_range]
    omega
  have hlen4 : CTX.vec_r.length = 2 ^ k := by
    rw [hCTX]
    unfold ConvertCtx.vec_r ConvertCtx.n
    simp only [List.length_map, List.length_range]
    omega
  have htarget : CTX.bp_target = ∑ i ∈ Finset.range (2 ^ k),
      (CTX.vec_l.getD i 0 • CTX.base1.getD i 0 + CTX.vec_r.getD i 0 • CTX.base2.getD i 0) := by
    rw [hCTX]
    unfold ConvertCtx.bp_target ConvertCtx.vec_l ConvertCtx.vec_r ConvertCtx.base1
      ConvertCtx.base2 ConvertCtx.n
    rw [show pks.length = 2 ^ k from by omega]
    refine Finset.sum_congr rfl fun i hi => ?_
    have hi' := Finset.mem_range.mp hi
    rw [getD_range_map _ _ _ _ hi', getD_range_map _ _ _ _ hi',
      getD_range_map _ _ _ _ hi', getD_range_map _ _ _ _ hi']
  have hch' : bpChallengesOK V.hm.hBp CTX.bp_target
      (BulletProof.prove V.hm.hBp CTX.base1 CTX.base2 CTX.vec_l CTX.vec_r
        CTX.bp_target).vec_point_l
      (BulletProof.prove V.hm.hBp CTX.base1 CTX.base2 CTX.vec_l CTX.vec_r
        CTX.bp_target).vec_point_r := hch
  have hbp0 := bp_complete_aux V.hm.hBp CTX.base1 CTX.base2 CTX.vec_l CTX.vec_r
    CTX.bp_target k hlen1 hlen2 hlen3 hlen4 htarget hch'
  have hfin : VerifyCtx.point_1 V + V.sig.bulletproof.target
      = VerifyCtx.point_2_init V
        + ∑ i ∈ Finset.range V.n,
            ((-V.w) • (V.params.vec_g.getD i 0 + V.d • V.pks.getD i 0)
              + (V.w * (build_vec_yn V.n V.y).getD i 0 + V.w * V.w)
                • ((build_vec_yn V.n V.y⁻¹).getD i 0 • V.params.vec_h.getD i 0)) :=
    check3_core pks.length index (by omega) CTX.y CTX.w CTX.x CTX.d rand.beta rand.alpha
      rand.rho rand.zeta rand.s_a rand.s_b params.g params.h params.vec_g params.vec_h pks hy
  exact VerifyCtx.run_ok V _ _ _ hc1 hc2 hp2 hb1 hb2 hbp0 hfin

/-- Witness for C1: a ring of size `1 = 2^0` over `ZMod 13` with secret key
`4`, nonce `5`, message `[1, 2, 3]`. -/
theorem incognito_correctness_witness :
    cParams1.WF 1
    ∧ ([(4 : ZMod 13)] : List (ZMod 13)).length = 2 ^ 0
    ∧ IncognitoParams.convert constHash 1 1 cParams1 cRand
        (([(4 : ZMod 13)] : List (ZMod 13)).map fun s => s • (1 : ZMod 13)) [1, 2, 3]
        (SchnorrSignature.sign constHash 1
          (([(4 : ZMod 13)] : List (ZMod 13)).getD 0 0) [1, 2, 3] 5) 0
      = .ok cIsig
    ∧ constHash.hY cParams1.g cIsig.point_a cIsig.point_s cIsig.point_s_pk cIsig.point_c_pk ≠ 0
    ∧ bpChallengesOK constHash.hBp cIsig.bulletproof.target cIsig.bulletproof.vec_point_l
        cIsig.bulletproof.vec_point_r
    ∧ IncognitoParams.verify constHash 1 cParams1
        (([(4 : ZMod 13)] : List (ZMod 13)).map fun s => s • (1 : ZMod 13)) [1, 2, 3] cIsig
      = some (.ok ()) :=
  ⟨by decide, by decide, by decide, by decide, by decide,
    incognito_correctness constHash 1 1 0 cParams1 cRand [4] [1, 2, 3] 0 5 cIsig
      (by decide) (by decide) (by decide) (by decide) (by decide) (by decide) (by decide)⟩

/-!
`verify` and the unchecked `MAXN` bound.
-/

theorem VerifyCtx.run_ne_none_of_some (v : VerifyCtx F P) (p2 : P) (b1 b2 : List P)
    (hp2 : v.point_2 = some p2)
    (hb1 : baseLoop1 v.params.vec_g v.pks v.d v.n = some b1)
    (hb2 : baseLoop2 v.params.vec_h (build_vec_yn v.n v.y⁻¹) v.n = some b2) :
    VerifyCtx.run v ≠ none := by
  unfold VerifyCtx.run
  by_cases h1 : v.check1
  · rw [if_pos h1]
    by_cases h2 : v.check2
    · rw [if_pos h2, hp2, hb1, hb2]
      show (match BulletProof.verify v.hm.hBp v.sig.bulletproof b1 b2 with
        | .ok _ =>
          if v.point_1 + v.sig.bulletproof.target = p2 then some (Except.ok ())
          else some (Except.error IncErr.invalidSignature)
        | .error e => some (Except.error e)) ≠ none
      cases BulletProof.verify v.hm.hBp v.sig.bulletproof b1 b2 with
      | ok u =>
        by_cases hf : v.point_1 + v.sig.bulletproof.target = p2
        · simp [hf]
        · simp [hf]
      | error e => simp
    · rw [if_neg h2]
      simp
  · rw [if_neg h1]
    simp

theorem VerifyCtx.run_none (v : VerifyCtx F P)
    (h1 : v.check1) (h2 : v.check2) (hp2 : v.point_2 = none) :
    VerifyCtx.run v = none := by
  unfold VerifyCtx.run
  rw [if_pos h1, if_pos h2, hp2]

/-- C10 (amended): `IncognitoParams::verify` performs no `n ≤ MAXN` check and
indexes the fixed-length parameter arrays `vec_g`/`vec_h` at every `i < n`
inside its third check, so that indexing is in-bounds iff `n ≤ MAXN`:
verification panics (result `none`) exactly when `n > MAXN` *and* the run
reaches the indexing loop, i.e. when checks 1 and 2 both pass; when an
earlier check fails, verify returns `InvalidSignature` even for `n > MAXN`.
The nonzero-hash hypotheses keep the run inside the regime where the model's
total inverse agrees with the code's `invert().unwrap()`. -/
theorem verify_maxn_behaviour (hm : HashModel F P) (genG : P) (MAXN : Nat)
    (params : IncognitoParams F P) (pks : List P) (message : List Nat)
    (sig : IncognitoSignature F P) (hWF : params.WF MAXN)
    (hy : ∀ a b c d e, hm.hY a b c d e ≠ 0) (hbp : ∀ a b c, hm.hBp a b c ≠ 0) :
    IncognitoParams.verify hm genG params pks message sig = none
      ↔ (MAXN < pks.length
          ∧ VerifyCtx.check1 ⟨hm, genG, params, pks, message, sig⟩
          ∧ VerifyCtx.check2 ⟨hm, genG, params, pks, message, sig⟩) := by
  show VerifyCtx.run ⟨hm, genG, params, pks, message, sig⟩ = none ↔ _
  set v : VerifyCtx F P := ⟨hm, genG, params, pks, message, sig⟩ with hv
  have hvn : v.n = pks.length := rfl
  have hvg : v.params.vec_g.length = MAXN := hWF.1
  have hvh : v.params.vec_h.length = MAXN := hWF.2
  constructor
  · intro hnone
    by_cases h1 : v.check1
    · by_cases h2 : v.check2
      · refine ⟨?_, h1, h2⟩
        by_contra hn
        push_neg at hn
        have hs2 := point2Loop_some v.params.vec_g v.params.vec_h v.pks
          (build_vec_yn v.n v.y) (build_vec_yn v.n v.y⁻¹) v.d v.w v.n
          (by omega) (by omega) v.point_2_init
        have hs1 := baseLoop1_some v.params.vec_g v.pks v.d v.n (by omega)
        have hs3 := baseLoop2_some v.params.vec_h (build_vec_yn v.n v.y⁻¹) v.n (by omega)
        exact VerifyCtx.run_ne_none_of_some v _ _ _
          (by unfold VerifyCtx.point_2; exact hs2) hs1 hs3 hnone
      · exfalso
        unfold VerifyCtx.run at hnone
        rw [if_pos h1, if_neg h2] at hnone
        exact Option.noConfusion hnone
    · exfalso
      unfold VerifyCtx.run at hnone
      rw [if_neg h1] at hnone
      exact Option.noConfusion hnone
  · rintro ⟨hn, h1, h2⟩
    refine VerifyCtx.run_none v h1 h2 ?_
    unfold VerifyCtx.point_2
    exact point2Loop_none _ _ _ _ _ _ _ v.n (by omega) _

/-- Witness for the amended C10: `MAXN = 0`, a ring of length 1, and the
all-zero signature (which passes checks 1 and 2 under the constant hash
model), so verification reaches the loop and panics. -/
theorem verify_maxn_behaviour_witness :
    cParams0.WF 0
    ∧ (IncognitoParams.verify constHash 1 cParams0 [0] [] cZeroSig = none
        ↔ (0 < ([(0 : ZMod 13)] : List (ZMod 13)).length
            ∧ VerifyCtx.check1 ⟨constHash, 1, cParams0, [0], [], cZeroSig⟩
            ∧ VerifyCtx.check2 ⟨constHash, 1, cParams0, [0], [], cZeroSig⟩)) :=
  ⟨by decide,
    verify_maxn_behaviour constHash 1 0 cParams0 [0] [] cZeroSig (by decide)
      (fun _ _ _ _ _ => by show (2 : ZMod 13) ≠ 0; decide)
      (fun _ _ _ => by show (1 : ZMod 13) ≠ 0; decide)⟩

/-- Counterexample to C10 as stated: with `MAXN = 1` and a ring of length 2,
a signature failing check 2 makes `verify` return `InvalidSignature` — it
does not panic, although `n > MAXN`. -/
theorem verify_maxn_counterexample :
    cParams1.WF 1
    ∧ 1 < ([0, 1] : List (ZMod 13)).length
    ∧ IncognitoParams.verify constHash 1 cParams1 [0, 1] [] cZeroSig
        = some (.error .invalidSignature) :=
  ⟨by decide, by decide, by decide⟩

/-!
Serialization round-trips.
-/

/-- C9: Serialization round-trip — under the curve library's guarantee that
projective → affine → projective conversion is the identity (`hA`, the
"affine canonical encoding" invariant of the spec), deserializing the
serialized form is the identity on `SchnorrSignature`, `BulletProof`,
`IncognitoSignature`, and (given its length invariant) `IncognitoParams`. -/
theorem serialization_round_trip (toAffine : P → A) (fromAffine : A → P)
    (hA : ∀ p : P, fromAffine (toAffine p) = p)
    (s : SchnorrSignature F P) (bp : BulletProof F P) (isig : IncognitoSignature F P)
    (MAXN : Nat) (params : IncognitoParams F P) (hWF : params.WF MAXN) :
    SchnorrSignature.ofSerde fromAffine (SchnorrSignature.toSerde toAffine s) = s
    ∧ BulletProof.ofSerde fromAffine (BulletProof.toSerde toAffine bp) = bp
    ∧ IncognitoSignature.ofSerde (IncognitoSignature.toSerde isig toAffine) fromAffine = isig
    ∧ IncognitoParams.ofSerde fromAffine MAXN (IncognitoParams.toSerde toAffine params)
        = some params := by
  have hmap : ∀ l : List P, (l.map toAffine).map fromAffine = l := by
    intro l
    rw [List.map_map, show fromAffine ∘ toAffine = id from funext hA, List.map_id]
  refine ⟨?_, ?_, ?_, ?_⟩
  · cases s
    simp [SchnorrSignature.toSerde, SchnorrSignature.ofSerde, hA]
  · cases bp
    simp [BulletProof.toSerde, BulletProof.ofSerde, hA, hmap]
  · cases isig
    simp [IncognitoSignature.toSerde, IncognitoSignature.ofSerde, hA]
  · obtain ⟨hg, hh⟩ := hWF
    cases params
    simp only [List.length_map] at hg hh
    simp only [IncognitoParams.toSerde, IncognitoParams.ofSerde, List.length_map]
    rw [if_pos ⟨hg, hh⟩]
    simp [hA, hmap]

/-- Witness for C9 over `ZMod 13` with the identity affine encoding. -/
theorem serialization_round_trip_witness :
    (∀ p : ZMod 13, (fun q : ZMod 13 => q) ((fun q : ZMod 13 => q) p) = p)
    ∧ cParams1.WF 1
    ∧ SchnorrSignature.ofSerde (fun q : ZMod 13 => q)
        (SchnorrSignature.toSerde (fun q : ZMod 13 => q)
          (⟨6, 7⟩ : SchnorrSignature (ZMod 13) (ZMod 13))) = ⟨6, 7⟩
    ∧ BulletProof.ofSerde (fun q : ZMod 13 => q)
        (BulletProof.toSerde (fun q : ZMod 13 => q)
          (⟨0, [1], [2], 3, 4⟩ : BulletProof (ZMod 13) (ZMod 13)))
      = ⟨0, [1], [2], 3, 4⟩
    ∧ IncognitoSignature.ofSerde
        (IncognitoSignature.toSerde cZeroSig (fun q : ZMod 13 => q))
        (fun q : ZMod 13 => q) = cZeroSig
    ∧ IncognitoParams.ofSerde (fun q : ZMod 13 => q) 1
        (IncognitoParams.toSerde (fun q : ZMod 13 => q) cParams1) = some cParams1 := by
  have h := serialization_round_trip (fun q : ZMod 13 => q) (fun q : ZMod 13 => q)
    (fun _ => rfl) ⟨6, 7⟩ ⟨0, [1], [2], 3, 4⟩ cZeroSig 1 cParams1 (by decide)
  exact ⟨fun _ => rfl, by decide, h.1, h.2.1, h.2.2.1, h.2.2.2⟩
